import Mathlib

/-!
Verification of the staged game-spec extraction pipelines of
`econagents-game-spec-gen` against its natural-language specification.

The repository drives an LLM through ordered extraction stages
(`parse_in_stages.py`, `interpret_in_stages.py`, `interpret_in_stages_full.py`,
`interpret_in_stages_rewrite.py`) and finally assembles the per-stage JSON
results into one output document (`yaml_dataclasses.py`).

This file shallowly embeds the deterministic parts of that code:
  * `Val` models the dynamically-typed JSON/Python values that flow between
    stages (`json.loads` output and the values stored in stage-result maps).
  * Python truthiness, `str()`, `dict.get`, `in`, `int()` and `str.join` are
    modelled by `truthy`, `pyStr`, `vget`, `pyContainsKey`, `pyToInt`, `pyJoin`.
  * Each claim-relevant function of the source is translated into a Lean
    definition of the same name (snake case turned into camel case, prefixed
    by a letter identifying the hosting module where two modules define the
    same name: `p…` = parse_in_stages, `i…` = interpret_in_stages,
    `f…` = interpret_in_stages_full, `r…` = interpret_in_stages_rewrite).

External collaborators (the LLM gateway, on-disk Jinja templates, the file
system, `json.loads` itself) are treated as black boxes, exactly as the spec
declares them out of scope: functions that consume their output take that
output as an explicit argument (e.g. the parse outcome is an
`Except String Val`, the rendered template a plain `String`).
-/

namespace EconSpec

/-- A JSON-like dynamic value as produced by `json.loads` and passed around
the pipelines.  Python `None` is represented by `vnull`.  Floats do not occur
in any claim-relevant flow and are outside the model. -/
inductive Val where
  | vnull
  | vbool (b : Bool)
  | vint (n : Int)
  | vstr (s : String)
  | vlist (xs : List Val)
  | vdict (kvs : List (String × Val))

mutual

/-- Structural equality on `Val`, modelling Python `==` on JSON values
(the Python `True == 1` conflation does not occur in claim-relevant flows). -/
def Val.beq : Val → Val → Bool
  | .vnull, .vnull => true
  | .vbool a, .vbool b => a == b
  | .vint a, .vint b => a == b
  | .vstr a, .vstr b => a == b
  | .vlist xs, .vlist ys => Val.beqList xs ys
  | .vdict xs, .vdict ys => Val.beqDict xs ys
  | _, _ => false

/-- Elementwise equality of value lists. -/
def Val.beqList : List Val → List Val → Bool
  | [], [] => true
  | x :: xs, y :: ys => Val.beq x y && Val.beqList xs ys
  | _, _ => false

/-- Entrywise equality of key/value lists. -/
def Val.beqDict : List (String × Val) → List (String × Val) → Bool
  | [], [] => true
  | (k, v) :: xs, (k2, v2) :: ys => k == k2 && Val.beq v v2 && Val.beqDict xs ys
  | _, _ => false

end

mutual

theorem Val.beq_refl : (a : Val) → Val.beq a a = true
  | .vnull => rfl
  | .vbool b => by simp [Val.beq]
  | .vint n => by simp [Val.beq]
  | .vstr s => by simp [Val.beq]
  | .vlist xs => by simp [Val.beq, Val.beqList_refl xs]
  | .vdict kvs => by simp [Val.beq, Val.beqDict_refl kvs]

theorem Val.beqList_refl : (xs : List Val) → Val.beqList xs xs = true
  | [] => rfl
  | x :: xs => by simp [Val.beqList, Val.beq_refl x, Val.beqList_refl xs]

theorem Val.beqDict_refl : (xs : List (String × Val)) → Val.beqDict xs xs = true
  | [] => rfl
  | (k, v) :: xs => by simp [Val.beqDict, Val.beq_refl v, Val.beqDict_refl xs]

end

mutual

theorem Val.eq_of_beq : (a b : Val) → Val.beq a b = true → a = b
  | .vnull, .vnull, _ => rfl
  | .vbool _, .vbool _, h => by simpa [Val.beq] using h
  | .vint _, .vint _, h => by simpa [Val.beq] using h
  | .vstr _, .vstr _, h => by simpa [Val.beq] using h
  | .vlist xs, .vlist ys, h => by
      have := Val.eqList_of_beq xs ys (by simpa [Val.beq] using h)
      simp [this]
  | .vdict xs, .vdict ys, h => by
      have := Val.eqDict_of_beq xs ys (by simpa [Val.beq] using h)
      simp [this]
  | .vnull, .vbool _, h => by simp [Val.beq] at h
  | .vnull, .vint _, h => by simp [Val.beq] at h
  | .vnull, .vstr _, h => by simp [Val.beq] at h
  | .vnull, .vlist _, h => by simp [Val.beq] at h
  | .vnull, .vdict _, h => by simp [Val.beq] at h
  | .vbool _, .vnull, h => by simp [Val.beq] at h
  | .vbool _, .vint _, h => by simp [Val.beq] at h
  | .vbool _, .vstr _, h => by simp [Val.beq] at h
  | .vbool _, .vlist _, h => by simp [Val.beq] at h
  | .vbool _, .vdict _, h => by simp [Val.beq] at h
  | .vint _, .vnull, h => by simp [Val.beq] at h
  | .vint _, .vbool _, h => by simp [Val.beq] at h
  | .vint _, .vstr _, h => by simp [Val.beq] at h
  | .vint _, .vlist _, h => by simp [Val.beq] at h
  | .vint _, .vdict _, h => by simp [Val.beq] at h
  | .vstr _, .vnull, h => by simp [Val.beq] at h
  | .vstr _, .vbool _, h => by simp [Val.beq] at h
  | .vstr _, .vint _, h => by simp [Val.beq] at h
  | .vstr _, .vlist _, h => by simp [Val.beq] at h
  | .vstr _, .vdict _, h => by simp [Val.beq] at h
  | .vlist _, .vnull, h => by simp [Val.beq] at h
  | .vlist _, .vbool _, h => by simp [Val.beq] at h
  | .vlist _, .vint _, h => by simp [Val.beq] at h
  | .vlist _, .vstr _, h => by simp [Val.beq] at h
  | .vlist _, .vdict _, h => by simp [Val.beq] at h
  | .vdict _, .vnull, h => by simp [Val.beq] at h
  | .vdict _, .vbool _, h => by simp [Val.beq] at h
  | .vdict _, .vint _, h => by simp [Val.beq] at h
  | .vdict _, .vstr _, h => by simp [Val.beq] at h
  | .vdict _, .vlist _, h => by simp [Val.beq] at h

theorem Val.eqList_of_beq : (xs ys : List Val) → Val.beqList xs ys = true → xs = ys
  | [], [], _ => rfl
  | x :: xs, y :: ys, h => by
      have h2 : Val.beq x y = true ∧ Val.beqList xs ys = true := by
        simpa [Val.beqList, Bool.and_eq_true] using h
      have e1 := Val.eq_of_beq x y h2.1
      have e2 := Val.eqList_of_beq xs ys h2.2
      simp [e1, e2]
  | [], _ :: _, h => by simp [Val.beqList] at h
  | _ :: _, [], h => by simp [Val.beqList] at h

theorem Val.eqDict_of_beq : (xs ys : List (String × Val)) → Val.beqDict xs ys = true → xs = ys
  | [], [], _ => rfl
  | (k, v) :: xs, (k2, v2) :: ys, h => by
      have h2 : (k == k2) = true ∧ Val.beq v v2 = true ∧ Val.beqDict xs ys = true := by
        simpa [Val.beqDict, Bool.and_eq_true, and_assoc] using h
      have e1 : k = k2 := by simpa using h2.1
      have e2 := Val.eq_of_beq v v2 h2.2.1
      have e3 := Val.eqDict_of_beq xs ys h2.2.2
      simp [e1, e2, e3]
  | [], _ :: _, h => by simp [Val.beqDict] at h
  | _ :: _, [], h => by simp [Val.beqDict] at h

end

instance : DecidableEq Val := fun a b =>
  if h : Val.beq a b = true then
    isTrue (Val.eq_of_beq a b h)
  else
    isFalse (fun he => h (he ▸ Val.beq_refl a))

/-- Python truthiness of a value: `None`, `False`, `0`, `""`, `[]` and
an empty dict are falsy, everything else is truthy. -/
def truthy : Val → Bool
  | .vnull => false
  | .vbool b => b
  | .vint n => n != 0
  | .vstr s => s != ""
  | .vlist xs => !xs.isEmpty
  | .vdict kvs => !kvs.isEmpty

/-- Truthiness of a `dict.get` result (`None` for a missing key is falsy). -/
def truthyOpt : Option Val → Bool
  | none => false
  | some v => truthy v

/-- `d.get(k)` on a JSON object: the value stored under the first matching
key, if any.  (In the source the receiver is always a dict in the
claim-relevant flows; `.get` on a non-dict raises in Python and is outside
the model, returning `none` here.) -/
def vget (v : Val) (k : String) : Option Val :=
  match v with
  | .vdict kvs => (kvs.find? (fun kv => kv.1 == k)).map (·.2)
  | _ => none

/-- `d.get(k, dflt)`. -/
def vgetD (v : Val) (k : String) (dflt : Val) : Val :=
  (vget v k).getD dflt

/-- Iterating a value that the code expects to be a JSON array.  Non-list
values are not iterated in any claim-relevant flow (in Python iterating a
non-iterable raises); the model returns `[]`. -/
def asList : Val → List Val
  | .vlist xs => xs
  | _ => []

/-- Key/value entries of a value the code expects to be a JSON object. -/
def asDict : Val → List (String × Val)
  | .vdict kvs => kvs
  | _ => []

/-- Whether the value is a JSON object (`isinstance(x, dict)`). -/
def isVdict : Val → Bool
  | .vdict _ => true
  | _ => false

/-- Whether the value is a JSON array (`isinstance(x, list)`). -/
def isVlist : Val → Bool
  | .vlist _ => true
  | _ => false

mutual

/-- Python `str()` of a value (`str(None) = "None"`, `str(True) = "True"`,
strings unchanged, containers rendered via `repr` of the elements).  The
`repr` rendering of nested strings approximates CPython (no escape
sequences); no claim-relevant flow renders a container. -/
def pyStr : Val → String
  | .vnull => "None"
  | .vbool b => if b then "True" else "False"
  | .vint n => toString n
  | .vstr s => s
  | .vlist xs => "[" ++ pyStrList xs ++ "]"
  | .vdict kvs => "\x7b" ++ pyStrDict kvs ++ "\x7d"

/-- `repr()` of a value, used for elements inside containers. -/
def pyRepr : Val → String
  | .vnull => "None"
  | .vbool b => if b then "True" else "False"
  | .vint n => toString n
  | .vstr s => "\x27" ++ s ++ "\x27"
  | .vlist xs => "[" ++ pyStrList xs ++ "]"
  | .vdict kvs => "\x7b" ++ pyStrDict kvs ++ "\x7d"

/-- Comma-joined `repr`s of list elements. -/
def pyStrList : List Val → String
  | [] => ""
  | [x] => pyRepr x
  | x :: xs => pyRepr x ++ ", " ++ pyStrList xs

/-- Comma-joined `repr`s of dict entries. -/
def pyStrDict : List (String × Val) → String
  | [] => ""
  | [(k, v)] => "\x27" ++ k ++ "\x27: " ++ pyRepr v
  | (k, v) :: kvs => "\x27" ++ k ++ "\x27: " ++ pyRepr v ++ ", " ++ pyStrDict kvs

end

/-- `str()` of a `dict.get` result (`str(None) = "None"`). -/
def pyStrOpt : Option Val → String
  | none => "None"
  | some v => pyStr v

/-- Python `sep.join(parts)`. -/
def pyJoin (sep : String) : List String → String
  | [] => ""
  | x :: xs => xs.foldl (fun acc y => acc ++ sep ++ y) x

/-- A non-empty all-digit character run read as a natural number. -/
def digitsToNat? (cs : List Char) : Option Nat :=
  if cs.isEmpty then none
  else if cs.all Char.isDigit then
    some (cs.foldl (fun acc c => acc * 10 + (c.toNat - 48)) 0)
  else none

/-- Parsing an optionally signed decimal numeral surrounded by whitespace,
as `int()` does on a string. -/
def strToInt? (s : String) : Option Int :=
  let cs := ((s.data.dropWhile Char.isWhitespace).reverse.dropWhile
    Char.isWhitespace).reverse
  match cs with
  | '-' :: rest => (digitsToNat? rest).map (fun n => -(n : Int))
  | '+' :: rest => (digitsToNat? rest).map (fun n => (n : Int))
  | _ => (digitsToNat? cs).map (fun n => (n : Int))

/-- Python `int(x)` on a JSON value, as an optional result (`none` models the
`TypeError`/`ValueError` branch caught by the callers).  Integers pass
through, booleans coerce, strings are parsed as optionally signed decimal
numerals after trimming surrounding whitespace (CPython extras such as
underscore separators are outside the model); `None`, lists and dicts fail. -/
def pyToInt : Val → Option Int
  | .vint n => some n
  | .vbool b => some (if b then 1 else 0)
  | .vstr s => strToInt? s
  | _ => none

/-- `int()` applied to a `dict.get` result: a missing key gives `None`,
which `int()` rejects. -/
def pyToIntOpt : Option Val → Option Int
  | none => none
  | some v => pyToInt v

/-- Whether `needle` occurs as a contiguous run inside `hay`. -/
def listHasRun (needle hay : List Char) : Bool :=
  (List.range (hay.length + 1)).any (fun i => needle.isPrefixOf (hay.drop i))

/-- Python substring test `needle in hay` on strings. -/
def strContains (hay needle : String) : Bool :=
  listHasRun needle.data hay.data

/-- Python `k in data` where `k` is a string: key membership for dicts,
element membership for lists, substring test for strings.  (On the remaining
value shapes Python raises `TypeError`; no claim-relevant flow reaches
them and the model returns `false`.) -/
def pyContainsKey (data : Val) (k : String) : Bool :=
  match data with
  | .vdict kvs => kvs.any (fun kv => kv.1 == k)
  | .vlist xs => xs.any (fun x => x == Val.vstr k)
  | .vstr s => strContains s k
  | _ => false

/-- Python `v in strs` where `strs` is a list of strings and `v` an arbitrary
value: true iff `v` equals one of the strings. -/
def pyValInStrList (v : Val) (strs : List String) : Bool :=
  strs.any (fun s => v == Val.vstr s)

/-! ## parse_in_stages.py — `StagedGameSpecParser` -/

/-- The `Stage` enum of `parse_in_stages.py`. -/
inductive PStage where
  | metaRolesPhases
  | state
  | settingsUi
  | partialPrompts
deriving DecidableEq

/-- `Stage.value` of `parse_in_stages.py`. -/
def pStageValue : PStage → String
  | .metaRolesPhases => "meta_roles_phases"
  | .state => "state"
  | .settingsUi => "settings_ui"
  | .partialPrompts => "partial_prompts"

/-- `self.stages` as fixed in `StagedGameSpecParser.__init__`. -/
def pStages : List PStage :=
  [.metaRolesPhases, .state, .settingsUi, .partialPrompts]

/-- The `ParserState` enum of `parse_in_stages.py`. -/
inductive ParserState where
  | IDLE
  | SELECTING_GAME
  | WAITING_RESPONSE
  | PROCESSING_RESPONSE
  | READY_FOR_FEEDBACK
  | SUCCESS
  | ERROR
  | WRITING_FILE
deriving DecidableEq

/-- `to_snake` defined inside `_compose_context_for_stage`:
`name.lower().replace(" ", "_")`. -/
def toSnake (name : String) : String :=
  String.mk ((name.data.map Char.toLower).map (fun c => if c = ' ' then '_' else c))

/-- The `role_tasks` taken from a phase object:
`ph.get("role_tasks", {}) or {}` followed by `.items()`. -/
def roleTasksItems (ph : Val) : List (String × Val) :=
  let rt := vgetD ph "role_tasks" (.vdict [])
  if truthy rt then asDict rt else []

/-- The expected prompt-partial names contributed by one phase object in the
skeleton loop of `_compose_context_for_stage` (stage `PARTIAL_PROMPTS`):
nothing for a non-actionable phase, otherwise a `system_…`/`user_…` pair per
role with a truthy task list.  (The skeleton objects themselves are only
serialized into the prompt for the external LLM and are not modelled.) -/
def phaseSlotNames (ph : Val) : List String :=
  if !(truthyOpt (vget ph "actionable")) then []
  else
    let phaseNumber := pyStrOpt (vget ph "phase_number")
    (roleTasksItems ph).flatMap (fun rt =>
      if !(truthy rt.2) then []
      else
        let roleSnake := toSnake rt.1
        ["system_" ++ roleSnake ++ "_" ++ phaseNumber,
         "user_" ++ roleSnake ++ "_" ++ phaseNumber])

/-- `self.expected_partial_names` as recorded by
`_compose_context_for_stage` for the `PARTIAL_PROMPTS` stage. -/
def expectedPartialNames (phases : List Val) : List String :=
  ["game_description", "game_information", "game_history"]
    ++ phases.flatMap phaseSlotNames

/-- Modelled from the spec wording (§4.3/§8 closed-set validation): the three
fixed names followed by, "for every actionable phase × role × non-empty task
list, two named prompt slots — one system, one user". -/
def expectedPartialNamesSpec (phases : List Val) : List String :=
  ["game_description", "game_information", "game_history"]
    ++ (phases.filter (fun ph => truthyOpt (vget ph "actionable"))).flatMap
      (fun ph =>
        ((roleTasksItems ph).filter (fun rt => truthy rt.2)).flatMap (fun rt =>
          ["system_" ++ toSnake rt.1 ++ "_" ++ pyStrOpt (vget ph "phase_number"),
           "user_" ++ toSnake rt.1 ++ "_" ++ pyStrOpt (vget ph "phase_number")]))

/-- The per-item loop of `_validate_stage` for stage `PARTIAL_PROMPTS`:
walks the `prompt_partials` list carrying the running index and the set of
names seen so far (modelled as an insertion-ordered list; only membership is
observable except in the extra-names message, where CPython's set iteration
order is unspecified).  The `", ".join` of extra names applies `str` to each
name (CPython would raise `TypeError` on a non-string name there). -/
def pValidatePartialsLoop (expected : List String) :
    List Val → Nat → List Val → Bool × Option String
  | [], _, names =>
      let missing := expected.filter (fun n => !(names.contains (Val.vstr n)))
      if !missing.isEmpty then
        (false, some ("Missing required partial(s): " ++ pyJoin ", " missing))
      else
        let extra := names.filter (fun n => !(pyValInStrList n expected))
        if !extra.isEmpty then
          (false, some ("Unexpected extra partial name(s): "
            ++ pyJoin ", " (extra.map pyStr)))
        else
          (true, none)
  | item :: rest, idx, names =>
      if !(isVdict item) then
        (false, some ("Each partial must be an object with \x27name\x27 and \x27content\x27 (error at index "
          ++ toString idx ++ ")"))
      else
        match vget item "name", vget item "content" with
        | some nm, some _ =>
            if names.contains nm then
              (false, some ("Duplicate partial name detected: " ++ pyStr nm))
            else
              pValidatePartialsLoop expected rest (idx + 1) (names ++ [nm])
        | _, _ =>
            (false, some ("Each partial must be an object with \x27name\x27 and \x27content\x27 (error at index "
              ++ toString idx ++ ")"))

/-- `_validate_stage` of `parse_in_stages.py` (returns the `(valid, error)`
pair).  `expected` is `self.expected_partial_names`. -/
def pValidateStage (expected : List String) (stage : PStage) (data : Val) :
    Bool × Option String :=
  match stage with
  | .metaRolesPhases =>
      let missing := ["meta", "roles", "phases", "payoff_consequences"].filter
        (fun k => !(pyContainsKey data k))
      if !missing.isEmpty then
        (false, some ("Missing required fields: " ++ pyJoin ", " missing))
      else
        (true, none)
  | .state =>
      if !(pyContainsKey data "state") then
        (false, some "Missing \x27state\x27 field")
      else
        (true, none)
  | .settingsUi =>
      let missing := ["settings", "ui"].filter (fun k => !(pyContainsKey data k))
      if !missing.isEmpty then
        (false, some ("Missing required fields: " ++ pyJoin ", " missing))
      else
        (true, none)
  | .partialPrompts =>
      if !(pyContainsKey data "prompt_partials") then
        (false, some "Missing \x27prompt_partials\x27 field")
      else
        match vget data "prompt_partials" with
        | some (.vlist items) => pValidatePartialsLoop expected items 0 []
        | _ => (false, some "\x27prompt_partials\x27 must be a list")

/-- The mutable parser fields read and written by the response-processing
path (`self.game_spec`, which only feeds the final file serialization — an
out-of-scope external format per spec §1 — is not modelled). -/
structure ParseSnapshot where
  stageResults : PStage → Option Val
  stageErrors : PStage → Option String
  runState : ParserState
  expectedNames : List String

/-- `_process_stage_response` of `parse_in_stages.py`.  `parsed` is the
outcome of the external `json.loads(response)` call: `.error e` carries
`str(e)` of the raised exception. -/
def pProcessStageResponse (p : ParseSnapshot) (stage : PStage)
    (response : String) (parsed : Except String Val) : ParseSnapshot :=
  match parsed with
  | .error e =>
      { p with
        stageErrors := fun s =>
          if s = stage then
            some ("Invalid JSON: " ++ e ++ "\nRaw response:\n" ++ response)
          else p.stageErrors s,
        runState := .ERROR }
  | .ok data =>
      let ve := pValidateStage p.expectedNames stage data
      if ve.1 then
        { p with
          stageResults := fun s => if s = stage then some data else p.stageResults s,
          stageErrors := fun s => if s = stage then none else p.stageErrors s,
          runState := .SUCCESS }
      else
        { p with
          stageErrors := fun s => if s = stage then ve.2 else p.stageErrors s,
          runState := .ERROR }

/-- `all_stages_successful` of `parse_in_stages.py`:
`all(self.stage_results[s] for s in self.stages)` — Python truthiness of
each stored result. -/
def pAllStagesSuccessful (results : PStage → Option Val) : Bool :=
  pStages.all (fun s => truthyOpt (results s))

/-- `next_stage` of `parse_in_stages.py`, acting on the cursor and run
state; returns the new cursor, the new run state and the returned value. -/
def pNextStage (idx : Nat) (_st : ParserState) : Nat × ParserState × Option String :=
  if idx < pStages.length - 1 then
    (idx + 1, .IDLE, some (pStageValue (pStages.getD (idx + 1) .metaRolesPhases)))
  else
    (idx, .SUCCESS, none)

/-- The `prompt_sections` list built by `_create_retry_with_feedback_prompt`
of `parse_in_stages.py`.  `context` and `basePrompt` are the outputs of
`_compose_context_for_stage` and `_render_prompt` (template rendering is an
external collaborator); `lastLlmResponse`, `stageError` and `humanFeedback`
are `self.last_llm_response`, `self.stage_errors.get(stage)` and the
optional argument. -/
def pRetrySections (stageValue context basePrompt : String)
    (lastLlmResponse stageError humanFeedback : Option String) : List String :=
  let header := "You are parsing stage: " ++ stageValue ++ "."
  let previousResponse := lastLlmResponse.getD ""
  let errorMessage := stageError.getD ""
  [header, context]
    ++ (if previousResponse != "" then
          ["\n--- PREVIOUS LLM RESPONSE ---\n" ++ previousResponse] else [])
    ++ (if errorMessage != "" then
          ["\n--- ERROR MESSAGE ---\n" ++ errorMessage] else [])
    ++ (match humanFeedback with
        | some f => if f != "" then ["\n--- HUMAN FEEDBACK ---\n" ++ f] else []
        | none => [])
    ++ ["\n--- STANDARD PROMPT ---\n" ++ basePrompt]

/-- `_create_retry_with_feedback_prompt` of `parse_in_stages.py`. -/
def pCreateRetryWithFeedbackPrompt (stageValue context basePrompt : String)
    (lastLlmResponse stageError humanFeedback : Option String) : String :=
  pyJoin "\n" (pRetrySections stageValue context basePrompt
    lastLlmResponse stageError humanFeedback)

/-- Modelled from the claim wording (spec §4.1): the same labeled sections,
but "in this fixed order: the stage's standard prompt first, then the
previous raw model response (if any), then the previous validation/error
message (if any), then the human feedback text (if any) … trailing sections
omitted when absent". -/
def retryPromptClaimOrder (stageValue context basePrompt : String)
    (lastLlmResponse stageError humanFeedback : Option String) : String :=
  let previousResponse := lastLlmResponse.getD ""
  let errorMessage := stageError.getD ""
  pyJoin "\n" (["You are parsing stage: " ++ stageValue ++ ".", context]
    ++ ["\n--- STANDARD PROMPT ---\n" ++ basePrompt]
    ++ (if previousResponse != "" then
          ["\n--- PREVIOUS LLM RESPONSE ---\n" ++ previousResponse] else [])
    ++ (if errorMessage != "" then
          ["\n--- ERROR MESSAGE ---\n" ++ errorMessage] else [])
    ++ (match humanFeedback with
        | some f => if f != "" then ["\n--- HUMAN FEEDBACK ---\n" ++ f] else []
        | none => []))

/-! ## interpret_in_stages.py — `StagedYamlInterpreter` -/

/-- The `InterpretStage` enum of `interpret_in_stages.py`. -/
inductive IStage where
  | meta
  | roles
  | state
  | phases
  | prompts
  | settings
  | ui
deriving DecidableEq

/-- `InterpretStage.value`. -/
def iStageValue : IStage → String
  | .meta => "meta"
  | .roles => "roles"
  | .state => "state"
  | .phases => "phases"
  | .prompts => "prompts"
  | .settings => "settings"
  | .ui => "ui"

/-- `self.stages` as fixed in `StagedYamlInterpreter.__init__`. -/
def iStages : List IStage :=
  [.meta, .roles, .state, .phases, .prompts, .settings, .ui]

/-- The `InterpreterState` enum of `interpret_in_stages.py`. -/
inductive InterpreterState where
  | IDLE
  | SELECTING_SPEC
  | WAITING_RESPONSE
  | PROCESSING_RESPONSE
  | READY_FOR_FEEDBACK
  | SUCCESS
  | ERROR
  | WRITING_FILE
deriving DecidableEq

/-- Python dict assignment `d[k] = v` on a string-keyed dict. -/
def dictSetVal (d : List (String × Val)) (k : String) (v : Val) :
    List (String × Val) :=
  if d.any (fun e => e.1 == k) then
    d.map (fun e => if e.1 == k then (k, v) else e)
  else
    d ++ [(k, v)]

/-- The root-key unwrapping of `_process_stage_response` in
`interpret_in_stages.py`: `if isinstance(parsed, dict) and root_key in
parsed: value = parsed[root_key] else: value = parsed`. -/
def iUnwrapRootKey (rootKey : String) (parsed : Val) : Val :=
  match parsed with
  | .vdict _ =>
      match vget parsed rootKey with
      | some v => v
      | none => parsed
  | _ => parsed

/-- The mutable interpreter fields touched by `_process_stage_response` of
`interpret_in_stages.py`. -/
structure InterpSnapshot where
  stageResults : IStage → Option Val
  stageErrors : IStage → Option String
  yamlData : List (String × Val)
  runState : InterpreterState

/-- `_process_stage_response` of `interpret_in_stages.py` (no validation:
any parsed value, unwrapped, is stored). -/
def iProcessStageResponse (p : InterpSnapshot) (stage : IStage)
    (parsed : Except String Val) : InterpSnapshot :=
  match parsed with
  | .error e =>
      { p with
        stageErrors := fun s =>
          if s = stage then some ("Invalid JSON response: " ++ e)
          else p.stageErrors s,
        runState := .ERROR }
  | .ok parsedVal =>
      let value := iUnwrapRootKey (iStageValue stage) parsedVal
      { p with
        stageResults := fun s => if s = stage then some value else p.stageResults s,
        stageErrors := fun s => if s = stage then none else p.stageErrors s,
        yamlData := dictSetVal p.yamlData (iStageValue stage) value,
        runState := .SUCCESS }

/-- `all_stages_successful` of `interpret_in_stages.py`: identical text to
the parse-pipeline version, over the seven interpret stages. -/
def iAllStagesSuccessful (results : IStage → Option Val) : Bool :=
  iStages.all (fun s => truthyOpt (results s))

/-- `_create_retry_with_feedback_prompt` of `interpret_in_stages.py` (same
section pattern as the parse pipeline, with an "interpreting" header and no
context block). -/
def iCreateRetryWithFeedbackPrompt (stageValue basePrompt : String)
    (lastLlmResponse stageError humanFeedback : Option String) : String :=
  let previousResponse := lastLlmResponse.getD ""
  let errorMessage := stageError.getD ""
  pyJoin "\n" (["You are interpreting stage: " ++ stageValue ++ "."]
    ++ (if previousResponse != "" then
          ["\n--- PREVIOUS LLM RESPONSE ---\n" ++ previousResponse] else [])
    ++ (if errorMessage != "" then
          ["\n--- ERROR MESSAGE ---\n" ++ errorMessage] else [])
    ++ (match humanFeedback with
        | some f => if f != "" then ["\n--- HUMAN FEEDBACK ---\n" ++ f] else []
        | none => [])
    ++ ["\n--- STANDARD PROMPT ---\n" ++ basePrompt])

/-! ## yaml_dataclasses.py — output document structures

Fields holding arbitrary Python values are typed `Val` (with `vnull` for
`None`); fields the assemblers only ever fill with ints, lists or nested
dataclasses keep those types.  Dataclass default values become Lean default
field values. -/

/-- `PromptPartial` of `yaml_dataclasses.py`. -/
structure PromptPartial where
  name : Val
  content : Val
deriving DecidableEq

/-- `RolePromptEntry` of `yaml_dataclasses.py`. -/
structure RolePromptEntry where
  key : Val
  value : Val
deriving DecidableEq

/-- `AgentRoleConfig` of `yaml_dataclasses.py`. -/
structure AgentRoleConfig where
  role_id : Nat
  name : Val
  llm_type : Val := .vnull
  llm_params : List (String × Val) := []
  prompts : List RolePromptEntry := []
  task_phases : List Val := []
  task_phases_excluded : List Val := []
deriving DecidableEq

/-- `AgentMappingConfig` of `yaml_dataclasses.py`. -/
structure AgentMappingConfig where
  id : Int
  role_id : Nat
deriving DecidableEq

/-- `StateFieldConfig` of `yaml_dataclasses.py` (the assemblers only ever
set `name`, `type` and `default`; the remaining dataclass fields keep their
defaults and are omitted). -/
structure StateFieldConfig where
  name : Val
  type : Val
  default : Val := .vnull
deriving DecidableEq

/-- `StateConfig` of `yaml_dataclasses.py`. -/
structure StateConfig where
  meta_information : List StateFieldConfig := []
  private_information : List StateFieldConfig := []
  public_information : List StateFieldConfig := []
deriving DecidableEq

/-- `ManagerConfig` of `yaml_dataclasses.py`. -/
structure ManagerConfig where
  type : Val := .vstr "TurnBasedPhaseManager"
  event_handlers : List Val := []
deriving DecidableEq

/-- `RunnerConfig` of `yaml_dataclasses.py`. -/
structure RunnerConfig where
  type : Val := .vstr "GameRunner"
  protocol : Val := .vstr "ws"
  hostname : Val := .vstr "localhost"
  path : Val := .vstr "wss"
  port : Int := 0
  game_id : Int := 0
  logs_dir : Val := .vstr "logs"
  log_level : Val := .vstr "INFO"
  prompts_dir : Val := .vstr "prompts"
  phase_transition_event : Val := .vstr "phase-transition"
  phase_identifier_key : Val := .vstr "phase"
  observability_provider : Val := .vnull
  continuous_phases : List Val := []
  min_action_delay : Int := 5
  max_action_delay : Int := 10
deriving DecidableEq

/-- `ExperimentConfig` of `yaml_dataclasses.py`. -/
structure ExperimentConfig where
  name : Val
  description : Val := .vstr ""
  prompt_partials : List PromptPartial := []
  agent_roles : List AgentRoleConfig := []
  agents : List AgentMappingConfig := []
  state : StateConfig := {}
  manager : ManagerConfig := {}
  runner : RunnerConfig := {}
deriving DecidableEq

/-! ## Shared pieces of the two assemblers

`interpret_in_stages_full.py` and `interpret_in_stages_rewrite.py` both
define a `StageState` enum with these members, and both `_finalize` bodies
contain the same role-lookup / per-role prompt-bucket / agents loops (up to
the JSON key naming the raw role reference). -/

/-- The `StageState` enum defined identically in
`interpret_in_stages_full.py` and `interpret_in_stages_rewrite.py`. -/
inductive InterpStageState where
  | IDLE
  | WAITING
  | PROCESSING
  | SUCCESS
  | ERROR
deriving DecidableEq

/-- The sentinel literal. -/
def cannotInfer : String := "cannot infer"

/-- Iterating `v or []` where `v` came from a `.get(…, [])`. -/
def iterOr (v : Val) : List Val :=
  if truthy v then asList v else []

/-- Python dict assignment on the `role_id_lookup` dict (string keys,
int values): overwrites in place or appends. -/
def dictSetNat (d : List (String × Nat)) (k : String) (v : Nat) :
    List (String × Nat) :=
  if d.any (fun e => e.1 == k) then
    d.map (fun e => if e.1 == k then (k, v) else e)
  else
    d ++ [(k, v)]

/-- Lookup in the `role_id_lookup` dict. -/
def lookupNat (d : List (String × Nat)) (k : String) : Option Nat :=
  (d.find? (fun e => e.1 == k)).map (·.2)

/-- The `role_id_lookup` built by both `_finalize` bodies:
`role_id_lookup[str(r.get(<rawKey>))] = idx` for `idx` enumerating the roles
from 1 (`rawKey` is `"role_id_raw"` in the full interpreter and
`"raw_role_id"` in the rewrite). -/
def roleIdLookupFrom (rawKey : String) (roles : List Val) :
    List (String × Nat) :=
  (List.enumFrom 1 roles).foldl
    (fun acc iv => dictSetNat acc (pyStrOpt (vget iv.2 rawKey)) iv.1) []

/-- `prompts_by_role = {ar.role_id: [] for ar in agent_roles}`. -/
def bucketsInit (ids : List Nat) : List (Nat × List RolePromptEntry) :=
  ids.map (fun i => (i, []))

/-- `prompts_by_role[rid].append(entry)`. -/
def bucketAppend (bs : List (Nat × List RolePromptEntry)) (k : Nat)
    (e : RolePromptEntry) : List (Nat × List RolePromptEntry) :=
  bs.map (fun b => if b.1 == k then (b.1, b.2 ++ [e]) else b)

/-- `prompts_by_role.get(ar.role_id, [])`. -/
def bucketGet (bs : List (Nat × List RolePromptEntry)) (k : Nat) :
    List RolePromptEntry :=
  ((bs.find? (fun b => b.1 == k)).map (·.2)).getD []

/-! ## interpret_in_stages_full.py — `InterpretInStages._finalize` -/

/-- `normalized_c = "" if c == "cannot infer" else c` in the partial-merge
loop of the full interpreter's `_finalize`. -/
def normalizedContent (c : Val) : Val :=
  if c == Val.vstr cannotInfer then .vstr "" else c

/-- One iteration of the partial-merge loop of the full interpreter's
`_finalize`: skip unnamed/falsy-named partials, normalize the sentinel to
`""`, store under the name if the name is new, overwrite only an existing
falsy value with a truthy one. -/
def mergeStep (acc : List (Val × Val)) (pp : Val) : List (Val × Val) :=
  match vget pp "name" with
  | none => acc
  | some n =>
      if !(truthy n) then acc
      else
        let c := vgetD pp "content" (.vstr "")
        let normalizedC := normalizedContent c
        match (acc.find? (fun e => e.1 == n)).map (·.2) with
        | none => acc ++ [(n, normalizedC)]
        | some existing =>
            if !(truthy existing) && truthy normalizedC then
              acc.map (fun e => if e.1 == n then (e.1, normalizedC) else e)
            else acc

/-- The `merged_partials` dict of the full interpreter's `_finalize`, fed
the concatenation of the meta-stage partial list and the generated partial
list (`for source in [meta…, gen…]: for pp in source or []`). -/
def mergePartials (pps : List Val) : List (Val × Val) :=
  pps.foldl mergeStep []

/-- The `AgentRoleConfig` built for the role at (1-based) position `idx` in
the full interpreter's `_finalize`. -/
def fBuildAgentRole (idx : Nat) (r : Val) : AgentRoleConfig :=
  let llmType0 := vgetD r "llm_type" .vnull
  let llmType := if llmType0 == Val.vstr cannotInfer then Val.vnull else llmType0
  let llmParams0 := vgetD r "llm_params" .vnull
  let llmParams :=
    if llmParams0 == Val.vstr cannotInfer || !(isVdict llmParams0) then []
    else asDict llmParams0
  let taskPhases0 := vgetD r "task_phases_inferred" .vnull
  let taskPhases :=
    if taskPhases0 == Val.vstr cannotInfer || !(isVlist taskPhases0) then []
    else asList taskPhases0
  { role_id := idx,
    name := vgetD r "name" (.vstr ("role_" ++ toString idx)),
    llm_type := llmType,
    llm_params := llmParams,
    prompts := [],
    task_phases := taskPhases,
    task_phases_excluded := [] }

/-- One iteration of the prompts-attach loop of the full interpreter's
`_finalize`: skip sentinel texts, resolve `str(rp.get("role_identifier"))`
through the lookup (unresolvable references are skipped), keep only
`system`/`user` kinds. -/
def fAttachStep (lookup : List (String × Nat))
    (bs : List (Nat × List RolePromptEntry)) (rp : Val) :
    List (Nat × List RolePromptEntry) :=
  let ridRaw := pyStrOpt (vget rp "role_identifier")
  let text := vgetD rp "text" (.vstr "")
  if text == Val.vstr cannotInfer then bs
  else
    match lookupNat lookup ridRaw with
    | none => bs
    | some rid =>
        let kind := vgetD rp "kind" .vnull
        if kind == Val.vstr "system" || kind == Val.vstr "user" then
          bucketAppend bs rid { key := kind, value := text }
        else bs

/-- `build_fields`'s per-element body in the full interpreter's `_finalize`
(`None` result models the `continue` on a falsy name). -/
def fBuildField (f : Val) : Option StateFieldConfig :=
  let nm0 := vgetD f "name" .vnull
  let nm := if truthy nm0 then nm0 else vgetD f "id" .vnull
  if !(truthy nm) then none
  else
    let tp0 := vgetD f "type" (.vstr "")
    let tp := if tp0 == Val.vstr cannotInfer then Val.vstr "" else tp0
    let dv0 := vgetD f "default" .vnull
    let dv := if dv0 == Val.vstr cannotInfer then Val.vnull else dv0
    some { name := nm, type := tp, default := dv }

/-- `build_fields` of the full interpreter's `_finalize`. -/
def fBuildFields (arr : List Val) : List StateFieldConfig :=
  arr.filterMap fBuildField

/-- The agents loop of the full interpreter's `_finalize`: resolve
`str(a.get("role_ref"))` through the lookup, then `int(a.get("id"))`
guarded by `try/except: continue`. -/
def fBuildAgents (lookup : List (String × Nat)) (agents : List Val) :
    List AgentMappingConfig :=
  agents.foldl (fun acc a =>
    match lookupNat lookup (pyStrOpt (vget a "role_ref")) with
    | none => acc
    | some rid =>
        match pyToIntOpt (vget a "id") with
        | none => acc
        | some n => acc ++ [{ id := n, role_id := rid }]) []

/-- `_finalize` of `interpret_in_stages_full.py`.  The six arguments are the
stage results the method reads out of `self.results` (each a validated JSON
object by the time `_finalize` runs).  Returns the assembled
`ExperimentConfig` together with the `StageState` the method leaves behind
(it unconditionally ends in `SUCCESS`). -/
def fFinalize (metaBlock rolesPhases stateBlock genPartialsBlock
    rolePromptsBlock agentsBlock : Val) : ExperimentConfig × InterpStageState :=
  let name0 := vgetD (vgetD metaBlock "meta" (.vdict [])) "name" (.vstr "")
  let name := if name0 == Val.vstr cannotInfer then Val.vstr "" else name0
  let description0 :=
    vgetD (vgetD metaBlock "meta" (.vdict [])) "description" (.vstr "")
  let description :=
    if description0 == Val.vstr cannotInfer then Val.vstr "" else description0
  let merged := mergePartials
    (iterOr (vgetD metaBlock "prompt_partials" (.vlist []))
      ++ iterOr (vgetD genPartialsBlock "prompt_partials" (.vlist [])))
  let partials := merged.map (fun kv => PromptPartial.mk kv.1 kv.2)
  let roles := asList (vgetD rolesPhases "roles" (.vlist []))
  let lookup := roleIdLookupFrom "role_id_raw" roles
  let agentRoles0 := (List.enumFrom 1 roles).map (fun iv => fBuildAgentRole iv.1 iv.2)
  let buckets := (asList (vgetD rolePromptsBlock "role_prompts" (.vlist []))).foldl
    (fAttachStep lookup) (bucketsInit (agentRoles0.map (·.role_id)))
  let agentRoles := agentRoles0.map (fun ar =>
    { ar with prompts := bucketGet buckets ar.role_id })
  let st := vgetD stateBlock "state" (.vdict [])
  let stateCfg : StateConfig :=
    { meta_information := fBuildFields (asList (vgetD st "meta_information" (.vlist []))),
      private_information := fBuildFields (asList (vgetD st "private_information" (.vlist []))),
      public_information := fBuildFields (asList (vgetD st "public_information" (.vlist []))) }
  let agentsCfg := fBuildAgents lookup (asList (vgetD agentsBlock "agents" (.vlist [])))
  ({ name := name,
     description := description,
     prompt_partials := partials,
     agent_roles := agentRoles,
     agents := agentsCfg,
     state := stateCfg,
     manager := {},
     runner := {} }, .SUCCESS)

/-! ## interpret_in_stages_full.py — validation and response processing -/

/-- The `Stage` enum of `interpret_in_stages_full.py`. -/
inductive FStage where
  | metaPartials
  | rolesPhases
  | state
  | promptPartials
  | rolePrompts
  | agents
  | finalize
deriving DecidableEq

/-- `_validate` of `interpret_in_stages_full.py`. -/
def fValidate (stage : FStage) (data : Val) : Bool × Option String :=
  match stage with
  | .metaPartials =>
      if !(pyContainsKey data "meta") || !(pyContainsKey data "prompt_partials") then
        (false, some "Missing meta or prompt_partials")
      else if !(isVlist (vgetD data "prompt_partials" .vnull)) then
        (false, some "prompt_partials must be list")
      else if !(isVdict (vgetD data "meta" .vnull)) then
        (false, some "meta must be object")
      else
        match (asList (vgetD data "prompt_partials" .vnull)).find? (fun p =>
          !(isVdict p) || !(pyContainsKey p "name") || !(pyContainsKey p "content")) with
        | some _ => (false, some "Each prompt_partial needs name & content")
        | none => (true, none)
  | .rolesPhases =>
      match ["roles", "phase_numbers", "actionable_phases", "role_task_map"].find?
        (fun r => !(pyContainsKey data r)) with
      | some r => (false, some ("Missing " ++ r))
      | none => (true, none)
  | .state =>
      if !(pyContainsKey data "state") then
        (false, some "Missing state")
      else
        match ["meta_information", "private_information", "public_information"].find?
          (fun sec => !(pyContainsKey (vgetD data "state" .vnull) sec)
            || !(isVlist (vgetD (vgetD data "state" .vnull) sec .vnull))) with
        | some sec => (false, some ("state." ++ sec ++ " missing or not list"))
        | none => (true, none)
  | .promptPartials =>
      if !(pyContainsKey data "prompt_partials")
          || !(isVlist (vgetD data "prompt_partials" .vnull)) then
        (false, some "Missing prompt_partials list")
      else
        match (asList (vgetD data "prompt_partials" .vnull)).find? (fun pp =>
          !(isVdict pp) || !(pyContainsKey pp "name") || !(pyContainsKey pp "content")) with
        | some _ => (false, some "Each prompt_partial requires name & content")
        | none => (true, none)
  | .rolePrompts =>
      if !(pyContainsKey data "role_prompts")
          || !(isVlist (vgetD data "role_prompts" .vnull)) then
        (false, some "Missing role_prompts list")
      else
        match (asList (vgetD data "role_prompts" .vnull)).findSome? (fun rp =>
          (["role_identifier", "phase", "kind", "text"].find?
            (fun k => !(pyContainsKey rp k))).map
            (fun k => "role_prompts entry missing " ++ k)) with
        | some msg => (false, some msg)
        | none => (true, none)
  | .agents =>
      if !(pyContainsKey data "agents") || !(isVlist (vgetD data "agents" .vnull)) then
        (false, some "Missing agents list")
      else
        match (asList (vgetD data "agents" .vnull)).find? (fun a =>
          !(pyContainsKey a "id") || !(pyContainsKey a "role_ref")) with
        | some _ => (false, some "agent missing id or role_ref")
        | none => (true, none)
  | .finalize => (true, none)

/-- The mutable fields of `InterpretInStages` touched by
`_process_response`. -/
structure FullSnapshot where
  results : FStage → Option Val
  errors : FStage → Option String
  runState : InterpStageState

/-- `_process_response` of `interpret_in_stages_full.py`; on a JSON parse
failure the recorded error embeds only the first 500 characters of the raw
response (`response[:500]`). -/
def fProcessResponse (p : FullSnapshot) (stage : FStage) (response : String)
    (parsed : Except String Val) : FullSnapshot :=
  match parsed with
  | .error e =>
      { p with
        errors := fun s =>
          if s = stage then
            some ("Invalid JSON: " ++ e ++ ". Raw: " ++ response.take 500)
          else p.errors s,
        runState := .ERROR }
  | .ok data =>
      let ve := fValidate stage data
      if ve.1 then
        { p with
          results := fun s => if s = stage then some data else p.results s,
          errors := fun s => if s = stage then none else p.errors s,
          runState := .SUCCESS }
      else
        { p with
          errors := fun s => if s = stage then ve.2 else p.errors s,
          runState := .ERROR }

/-! ## interpret_in_stages_rewrite.py — `FreshInterpreter` -/

/-- The `Stage` enum of `interpret_in_stages_rewrite.py`. -/
inductive RStage where
  | meta
  | agentRoles
  | state
  | rolePrompts
  | agents
  | manager
  | runner
  | finalize
deriving DecidableEq

/-- `self.stages` as fixed in `FreshInterpreter.__init__`. -/
def rStages : List RStage :=
  [.meta, .agentRoles, .state, .rolePrompts, .agents, .manager, .runner, .finalize]

/-- `next_stage` of `interpret_in_stages_rewrite.py`: increments the cursor
and resets the state to `IDLE` before the last stage; at the last stage it
returns `None` leaving cursor and state untouched. -/
def rNextStage (idx : Nat) (st : InterpStageState) :
    Nat × InterpStageState × Option RStage :=
  if idx < rStages.length - 1 then
    (idx + 1, .IDLE, some (rStages.getD (idx + 1) .meta))
  else
    (idx, st, none)

/-- The `AgentRoleConfig` built for the role at (1-based) position `idx` in
the rewrite interpreter's `_finalize` (no sentinel stripping on
`llm_params`/`task_phases`, and the sentinel itself is the default name). -/
def rBuildAgentRole (idx : Nat) (r : Val) : AgentRoleConfig :=
  let llmType0 := vgetD r "llm_type" .vnull
  let llmType := if llmType0 == Val.vstr cannotInfer then Val.vnull else llmType0
  let llmParams0 := vgetD r "llm_params" .vnull
  let llmParams := if isVdict llmParams0 then asDict llmParams0 else []
  let taskPhases0 := vgetD r "task_phases" .vnull
  let taskPhases := if isVlist taskPhases0 then asList taskPhases0 else []
  { role_id := idx,
    name := vgetD r "name" (.vstr cannotInfer),
    llm_type := llmType,
    llm_params := llmParams,
    prompts := [],
    task_phases := taskPhases,
    task_phases_excluded := [] }

/-- One iteration of the prompts-attach loop of the rewrite interpreter's
`_finalize`: resolve `str(rp.get('raw_role_id'))`, keep truthy contents,
store the raw `kind` value as the entry key. -/
def rAttachStep (lookup : List (String × Nat))
    (bs : List (Nat × List RolePromptEntry)) (rp : Val) :
    List (Nat × List RolePromptEntry) :=
  let rid := pyStrOpt (vget rp "raw_role_id")
  match lookupNat lookup rid with
  | none => bs
  | some ridN =>
      let content := vgetD rp "content" (.vstr "")
      if truthy content then
        bucketAppend bs ridN { key := vgetD rp "kind" .vnull, value := content }
      else bs

/-- `convert_field` of the rewrite interpreter's `_finalize` (no sentinel
stripping at all). -/
def rConvertField (f : Val) : Option StateFieldConfig :=
  let nm0 := vgetD f "name" .vnull
  let nm := if truthy nm0 then nm0 else vgetD f "id" .vnull
  if !(truthy nm) then none
  else some { name := nm, type := vgetD f "type" (.vstr ""), default := vgetD f "default" .vnull }

/-- The agents loop of the rewrite interpreter's `_finalize` (identical to
the full interpreter's loop up to the `raw_role_ref` key). -/
def rBuildAgents (lookup : List (String × Nat)) (agents : List Val) :
    List AgentMappingConfig :=
  agents.foldl (fun acc a =>
    match lookupNat lookup (pyStrOpt (vget a "raw_role_ref")) with
    | none => acc
    | some rid =>
        match pyToIntOpt (vget a "id") with
        | none => acc
        | some n => acc ++ [{ id := n, role_id := rid }]) []

/-- The `RunnerConfig` construction of the rewrite interpreter's
`_finalize`: every string-typed field defaults to the sentinel and is kept
verbatim ("keep \x27cannot infer\x27 strings intact" per the source
comment); int fields fall back to fixed defaults unless the JSON value is an
int (Python's `isinstance(True, int)` corner is outside the model).  -/
def rBuildRunner (rj : Val) : RunnerConfig :=
  { type := vgetD rj "type" (.vstr cannotInfer),
    protocol := vgetD rj "protocol" (.vstr cannotInfer),
    hostname := vgetD rj "hostname" (.vstr cannotInfer),
    path := vgetD rj "path" (.vstr cannotInfer),
    port := match vgetD rj "port" .vnull with | .vint n => n | _ => 0,
    game_id := match vgetD rj "game_id" .vnull with | .vint n => n | _ => 0,
    logs_dir := vgetD rj "logs_dir" (.vstr cannotInfer),
    log_level := vgetD rj "log_level" (.vstr cannotInfer),
    prompts_dir := vgetD rj "prompts_dir" (.vstr cannotInfer),
    phase_transition_event := vgetD rj "phase_transition_event" (.vstr cannotInfer),
    phase_identifier_key := vgetD rj "phase_identifier_key" (.vstr cannotInfer),
    observability_provider :=
      (let ov := vgetD rj "observability_provider" .vnull
       if ov == Val.vnull || ov == Val.vstr cannotInfer then Val.vnull else ov),
    continuous_phases :=
      (match vgetD rj "continuous_phases" .vnull with | .vlist xs => xs | _ => []),
    min_action_delay := match vgetD rj "min_action_delay" .vnull with | .vint n => n | _ => 5,
    max_action_delay := match vgetD rj "max_action_delay" .vnull with | .vint n => n | _ => 10 }

/-- `_finalize` of `interpret_in_stages_rewrite.py`.  `parsed` is the parsed
source JSON (`self._load_parsed()`); the `Option Val` arguments are the raw
entries of `self.results` for the respective stages (`none` when the stage
never stored a result), matching the `if self.results.get(Stage.X)`
truthiness guards in the body. -/
def rFinalize (parsed : Val) (metaRes rolesRes stateRes rolePromptsRes
    agentsRes managerRes runnerRes : Option Val) :
    ExperimentConfig × InterpStageState :=
  let rawPartials := iterOr (vgetD parsed "prompt_partials" (.vlist []))
  let promptPartials := rawPartials.filterMap (fun pp =>
    if isVdict pp && pyContainsKey pp "name" && pyContainsKey pp "content" then
      some (PromptPartial.mk (vgetD pp "name" .vnull) (vgetD pp "content" .vnull))
    else none)
  let meta :=
    if truthyOpt metaRes then vgetD (metaRes.getD (.vdict [])) "meta" (.vdict [])
    else .vdict []
  let rawRoles :=
    if truthyOpt rolesRes then
      asList (vgetD (rolesRes.getD (.vdict [])) "agent_roles" (.vlist []))
    else []
  let lookup := roleIdLookupFrom "raw_role_id" rawRoles
  let agentRoles0 := (List.enumFrom 1 rawRoles).map (fun iv => rBuildAgentRole iv.1 iv.2)
  let rps :=
    if truthyOpt rolePromptsRes then
      asList (vgetD (rolePromptsRes.getD (.vdict [])) "role_prompts" (.vlist []))
    else []
  let buckets := rps.foldl (rAttachStep lookup) (bucketsInit (agentRoles0.map (·.role_id)))
  let agentRoles := agentRoles0.map (fun ar =>
    { ar with prompts := bucketGet buckets ar.role_id })
  let stJson :=
    if truthyOpt stateRes then vgetD (stateRes.getD (.vdict [])) "state" (.vdict [])
    else .vdict []
  let stateCfg : StateConfig :=
    { meta_information := (asList (vgetD stJson "meta_information" (.vlist []))).filterMap rConvertField,
      private_information := (asList (vgetD stJson "private_information" (.vlist []))).filterMap rConvertField,
      public_information := (asList (vgetD stJson "public_information" (.vlist []))).filterMap rConvertField }
  let agentsList :=
    if truthyOpt agentsRes then
      asList (vgetD (agentsRes.getD (.vdict [])) "agents" (.vlist []))
    else []
  let agentsCfg := rBuildAgents lookup agentsList
  let managerType :=
    if truthyOpt managerRes then
      vgetD (vgetD (managerRes.getD (.vdict [])) "manager" (.vdict [])) "type" (.vstr cannotInfer)
    else .vstr cannotInfer
  let runnerJson :=
    if truthyOpt runnerRes then vgetD (runnerRes.getD (.vdict [])) "runner" (.vdict [])
    else .vdict []
  ({ name := vgetD meta "name" (.vstr cannotInfer),
     description := vgetD meta "description" (.vstr cannotInfer),
     prompt_partials := promptPartials,
     agent_roles := agentRoles,
     agents := agentsCfg,
     state := stateCfg,
     manager := { type := managerType, event_handlers := [] },
     runner := rBuildRunner runnerJson }, .SUCCESS)

/-! ## Specification-side helper definitions used in theorem statements -/

/-- One optional labelled section of a retry prompt, as it appears inside
the joined prompt: empty when its source text is empty, otherwise the
joining newline, the label block, and the text. -/
def optSec (lbl s : String) : String :=
  if s = "" then "" else "\n" ++ (lbl ++ s)

/-- A well-formed prompt-partial payload item with the given name and
content. -/
def mkPartial (nc : String × String) : Val :=
  .vdict [("name", .vstr nc.1), ("content", .vstr nc.2)]

/-- Lookup in a `Val`-keyed dict (the `merged_partials` dict). -/
def lookupVal (d : List (Val × Val)) (n : Val) : Option Val :=
  (d.find? (fun e => e.1 == n)).map (·.2)

/-- The contribution of one raw partial object to the merged value stored
under name `n`: its normalized content when it carries the truthy name `n`,
nothing otherwise. -/
def mergeContrib (n : Val) (pp : Val) : Option Val :=
  match vget pp "name" with
  | none => none
  | some m =>
      if truthy m && m == n then
        some (normalizedContent (vgetD pp "content" (.vstr "")))
      else none

/-- The merge policy on one name, given the value already stored (if any)
and the normalized contributions still to come: a stored truthy value is
final; otherwise the first truthy contribution wins; with no truthy
contribution the stored value (or else the first contribution) remains. -/
def mergeOutcome (prior : Option Val) (cs : List Val) : Option Val :=
  match prior with
  | some v =>
      if truthy v then some v
      else
        match cs.find? truthy with
        | some w => some w
        | none => some v
  | none =>
      match cs.find? truthy with
      | some w => some w
      | none => cs.head?

/-- Whether a prompt bucket for role id `j` exists. -/
def bucketHasKey (bs : List (Nat × List RolePromptEntry)) (j : Nat) : Bool :=
  bs.any (fun b => b.1 == j)

/-- The resolution of one role-prompt object by the full interpreter's
attach loop: the target role id and entry, or nothing when the text is the
sentinel, the reference does not resolve, or the kind is not
`system`/`user`. -/
def fAttachTarget (lookup : List (String × Nat)) (rp : Val) :
    Option (Nat × RolePromptEntry) :=
  let text := vgetD rp "text" (.vstr "")
  if text == Val.vstr cannotInfer then none
  else
    match lookupNat lookup (pyStrOpt (vget rp "role_identifier")) with
    | none => none
    | some rid =>
        let kind := vgetD rp "kind" .vnull
        if kind == Val.vstr "system" || kind == Val.vstr "user" then
          some (rid, { key := kind, value := text })
        else none

/-- The resolution of one role-prompt object by the rewrite interpreter's
attach loop: the target role id and entry, or nothing when the reference
does not resolve or the content is falsy. -/
def rAttachTarget (lookup : List (String × Nat)) (rp : Val) :
    Option (Nat × RolePromptEntry) :=
  match lookupNat lookup (pyStrOpt (vget rp "raw_role_id")) with
  | none => none
  | some rid =>
      let content := vgetD rp "content" (.vstr "")
      if truthy content then
        some (rid, { key := vgetD rp "kind" .vnull, value := content })
      else none

/-- The attach loop body abstracted over the per-object resolution. -/
def stepOfTarget (g : Val → Option (Nat × RolePromptEntry))
    (bs : List (Nat × List RolePromptEntry)) (rp : Val) :
    List (Nat × List RolePromptEntry) :=
  match g rp with
  | none => bs
  | some (rid, e) => bucketAppend bs rid e

/-- The entry a role-prompt object contributes to role id `j`. -/
def targetEntryFor (g : Val → Option (Nat × RolePromptEntry)) (j : Nat)
    (rp : Val) : Option RolePromptEntry :=
  match g rp with
  | none => none
  | some (rid, e) => if rid = j then some e else none

/-- The `AgentMappingConfig` the full interpreter's agents loop produces
from one agents-stage entry: nothing when the role reference does not
resolve or `int()` on the id fails. -/
def fAgentSpec (lookup : List (String × Nat)) (a : Val) :
    Option AgentMappingConfig :=
  match lookupNat lookup (pyStrOpt (vget a "role_ref")) with
  | none => none
  | some rid => (pyToIntOpt (vget a "id")).map (fun n => { id := n, role_id := rid })

/-- As `fAgentSpec`, for the rewrite interpreter (`raw_role_ref` key). -/
def rAgentSpec (lookup : List (String × Nat)) (a : Val) :
    Option AgentMappingConfig :=
  match lookupNat lookup (pyStrOpt (vget a "raw_role_ref")) with
  | none => none
  | some rid => (pyToIntOpt (vget a "id")).map (fun n => { id := n, role_id := rid })

/-! ## General helper lemmas -/

theorem truthyOpt_eq_true_iff (o : Option Val) :
    truthyOpt o = true ↔ ∃ v, o = some v ∧ truthy v = true := by
  cases o <;> simp [truthyOpt]

/-! ### Agents loops as filterMaps -/

theorem fBuildAgents_foldl_aux (lookup : List (String × Nat)) (agents : List Val)
    (acc : List AgentMappingConfig) :
    agents.foldl (fun acc a =>
      match lookupNat lookup (pyStrOpt (vget a "role_ref")) with
      | none => acc
      | some rid =>
          match pyToIntOpt (vget a "id") with
          | none => acc
          | some n => acc ++ [{ id := n, role_id := rid }]) acc
      = acc ++ agents.filterMap (fAgentSpec lookup) := by
  induction agents generalizing acc with
  | nil => simp
  | cons a t ih =>
      rcases h1 : lookupNat lookup (pyStrOpt (vget a "role_ref")) with _ | rid
      · simp [List.foldl_cons, h1, ih, fAgentSpec]
      · rcases h2 : pyToIntOpt (vget a "id") with _ | n
        · simp [List.foldl_cons, h1, h2, ih, fAgentSpec]
        · simp [List.foldl_cons, h1, h2, ih, fAgentSpec]

theorem fBuildAgents_eq (lookup : List (String × Nat)) (agents : List Val) :
    fBuildAgents lookup agents = agents.filterMap (fAgentSpec lookup) := by
  simpa using fBuildAgents_foldl_aux lookup agents []

theorem rBuildAgents_foldl_aux (lookup : List (String × Nat)) (agents : List Val)
    (acc : List AgentMappingConfig) :
    agents.foldl (fun acc a =>
      match lookupNat lookup (pyStrOpt (vget a "raw_role_ref")) with
      | none => acc
      | some rid =>
          match pyToIntOpt (vget a "id") with
          | none => acc
          | some n => acc ++ [{ id := n, role_id := rid }]) acc
      = acc ++ agents.filterMap (rAgentSpec lookup) := by
  induction agents generalizing acc with
  | nil => simp
  | cons a t ih =>
      rcases h1 : lookupNat lookup (pyStrOpt (vget a "raw_role_ref")) with _ | rid
      · simp [List.foldl_cons, h1, ih, rAgentSpec]
      · rcases h2 : pyToIntOpt (vget a "id") with _ | n
        · simp [List.foldl_cons, h1, h2, ih, rAgentSpec]
        · simp [List.foldl_cons, h1, h2, ih, rAgentSpec]

theorem rBuildAgents_eq (lookup : List (String × Nat)) (agents : List Val) :
    rBuildAgents lookup agents = agents.filterMap (rAgentSpec lookup) := by
  simpa using rBuildAgents_foldl_aux lookup agents []

/-! ### Prompt buckets -/

theorem bucketGet_bucketsInit (ids : List Nat) (j : Nat) :
    bucketGet (bucketsInit ids) j = [] := by
  induction ids with
  | nil => rfl
  | cons a t ih =>
      by_cases h : a = j
      · simp [bucketsInit, bucketGet, List.find?_cons, h]
      · simp [bucketsInit, bucketGet, List.find?_cons, h]
        simpa [bucketsInit, bucketGet] using ih

theorem bucketHasKey_bucketsInit (ids : List Nat) (j : Nat) (h : j ∈ ids) :
    bucketHasKey (bucketsInit ids) j = true := by
  induction ids with
  | nil => simp at h
  | cons a t ih =>
      simp only [bucketsInit, bucketHasKey, List.map_cons, List.any_cons]
      rcases List.mem_cons.mp h with h1 | h1
      · simp [h1]
      · have h2 := ih h1
        simp only [bucketsInit, bucketHasKey] at h2
        simp [h2]

theorem bucketAppend_head_fst (b : Nat × List RolePromptEntry) (k : Nat)
    (e : RolePromptEntry) :
    (if b.1 == k then (b.1, b.2 ++ [e]) else b).1 = b.1 := by
  split <;> rfl

theorem bucketHasKey_bucketAppend (bs : List (Nat × List RolePromptEntry))
    (k j : Nat) (e : RolePromptEntry) :
    bucketHasKey (bucketAppend bs k e) j = bucketHasKey bs j := by
  induction bs with
  | nil => rfl
  | cons b t ih =>
      simp only [bucketAppend, bucketHasKey, List.map_cons, List.any_cons] at ih ⊢
      rw [bucketAppend_head_fst, ih]

theorem bucketGet_bucketAppend_same (bs : List (Nat × List RolePromptEntry))
    (j : Nat) (e : RolePromptEntry) (h : bucketHasKey bs j = true) :
    bucketGet (bucketAppend bs j e) j = bucketGet bs j ++ [e] := by
  induction bs with
  | nil => simp [bucketHasKey] at h
  | cons b t ih =>
      simp only [bucketAppend, bucketGet, List.map_cons, List.find?_cons] at ih ⊢
      cases hb : (b.1 == j) with
      | true => simp [hb]
      | false =>
          have ht : bucketHasKey t j = true := by
            simpa [bucketHasKey, List.any_cons, hb] using h
          have hred : (if false = true then (b.1, b.2 ++ [e]) else b) = b := rfl
          rw [hred, hb]
          exact ih ht

theorem bucketGet_bucketAppend_ne (bs : List (Nat × List RolePromptEntry))
    (k j : Nat) (e : RolePromptEntry) (h : k ≠ j) :
    bucketGet (bucketAppend bs k e) j = bucketGet bs j := by
  induction bs with
  | nil => rfl
  | cons b t ih =>
      simp only [bucketAppend, bucketGet, List.map_cons, List.find?_cons] at ih ⊢
      have hph : ((if b.1 == k then (b.1, b.2 ++ [e]) else b).1 == j) = (b.1 == j) := by
        rw [bucketAppend_head_fst]
      cases hb : (b.1 == j) with
      | true =>
          have hbk : (b.1 == k) = false := by
            have hj : b.1 = j := by simpa using hb
            simp [hj, Ne.symm h]
          rw [hph, hb]
          simp [hbk]
      | false =>
          rw [hph, hb]
          exact ih

theorem bucketGet_foldl_stepOfTarget (g : Val → Option (Nat × RolePromptEntry))
    (rps : List Val) (bs : List (Nat × List RolePromptEntry)) (j : Nat)
    (h : bucketHasKey bs j = true) :
    bucketGet (rps.foldl (stepOfTarget g) bs) j
      = bucketGet bs j ++ rps.filterMap (targetEntryFor g j) := by
  induction rps generalizing bs with
  | nil => simp
  | cons rp t ih =>
      rcases hg : g rp with _ | ⟨rid, e⟩
      · simpa [stepOfTarget, hg, targetEntryFor] using ih bs h
      · by_cases hj : rid = j
        · subst hj
          have h2 : bucketHasKey (bucketAppend bs rid e) rid = true := by
            rw [bucketHasKey_bucketAppend]; exact h
          have := ih (bucketAppend bs rid e) h2
          simp [stepOfTarget, hg, targetEntryFor, this,
            bucketGet_bucketAppend_same bs rid e h]
        · have h2 : bucketHasKey (bucketAppend bs rid e) j = true := by
            rw [bucketHasKey_bucketAppend]; exact h
          have := ih (bucketAppend bs rid e) h2
          simp [stepOfTarget, hg, targetEntryFor, this, hj,
            bucketGet_bucketAppend_ne bs rid j e hj]

theorem fAttachStep_eq_stepOfTarget (lookup : List (String × Nat))
    (bs : List (Nat × List RolePromptEntry)) (rp : Val) :
    fAttachStep lookup bs rp = stepOfTarget (fAttachTarget lookup) bs rp := by
  unfold fAttachStep stepOfTarget fAttachTarget
  by_cases h1 : (vgetD rp "text" (.vstr "") == Val.vstr cannotInfer) = true
  · simp [h1]
  · rcases h2 : lookupNat lookup (pyStrOpt (vget rp "role_identifier")) with _ | rid
    · simp [h1, h2]
    · by_cases h3 : (vgetD rp "kind" .vnull == Val.vstr "system"
          || vgetD rp "kind" .vnull == Val.vstr "user") = true
      · simp [h1, h2, h3]
      · simp [h1, h2, h3]

theorem rAttachStep_eq_stepOfTarget (lookup : List (String × Nat))
    (bs : List (Nat × List RolePromptEntry)) (rp : Val) :
    rAttachStep lookup bs rp = stepOfTarget (rAttachTarget lookup) bs rp := by
  unfold rAttachStep stepOfTarget rAttachTarget
  rcases h1 : lookupNat lookup (pyStrOpt (vget rp "raw_role_id")) with _ | rid
  · simp [h1]
  · by_cases h2 : truthy (vgetD rp "content" (.vstr "")) = true
    · simp [h1, h2]
    · simp [h1, h2]

/-! ### Role-id lookup construction -/

theorem dictSetNat_head_fst (e : String × Nat) (k2 : String) (v : Nat) :
    (if e.1 == k2 then (k2, v) else e).1 = e.1 := by
  by_cases h : (e.1 == k2) = true
  · have he : e.1 = k2 := by simpa using h
    simp [h, he]
  · simp [h]

theorem any_keys_map_update (t : List (String × Nat)) (k2 k0 : String) (v : Nat) :
    (t.map (fun e => if e.1 == k2 then (k2, v) else e)).any (fun e => e.1 == k0)
      = t.any (fun e => e.1 == k0) := by
  induction t with
  | nil => rfl
  | cons e t ih =>
      simp only [List.map_cons, List.any_cons, ih]
      rw [dictSetNat_head_fst]

theorem lookupNat_map_update_ne (t : List (String × Nat)) (k2 k : String)
    (v : Nat) (h : k2 ≠ k) :
    lookupNat (t.map (fun e => if e.1 == k2 then (k2, v) else e)) k
      = lookupNat t k := by
  induction t with
  | nil => rfl
  | cons e t ih =>
      simp only [lookupNat, List.map_cons, List.find?_cons] at ih ⊢
      have hph : ((if e.1 == k2 then (k2, v) else e).1 == k) = (e.1 == k) := by
        rw [dictSetNat_head_fst]
      cases hb : (e.1 == k) with
      | true =>
          have he2 : (e.1 == k2) = false := by
            have h1 : e.1 = k := by simpa using hb
            have : e.1 ≠ k2 := by rw [h1]; exact fun hc => h hc.symm
            simpa using this
          simp [hph, hb, he2]
      | false =>
          simp only [hph, hb]
          exact ih

theorem lookupNat_map_update_self (t : List (String × Nat)) (k2 : String)
    (v : Nat) (hany : t.any (fun e => e.1 == k2) = true) :
    lookupNat (t.map (fun e => if e.1 == k2 then (k2, v) else e)) k2 = some v := by
  induction t with
  | nil => simp at hany
  | cons e t ih =>
      simp only [lookupNat, List.map_cons, List.find?_cons] at ih ⊢
      have hph : ((if e.1 == k2 then (k2, v) else e).1 == k2) = (e.1 == k2) := by
        rw [dictSetNat_head_fst]
      cases hb : (e.1 == k2) with
      | true => simp [hph, hb]
      | false =>
          have ht : t.any (fun e => e.1 == k2) = true := by
            simpa [List.any_cons, hb] using hany
          have hred : (if false = true then (k2, v) else e) = e := rfl
          rw [hred, hb]
          exact ih ht

theorem lookupNat_append_single_ne (t : List (String × Nat)) (k2 k : String)
    (v : Nat) (h : k2 ≠ k) :
    lookupNat (t ++ [(k2, v)]) k = lookupNat t k := by
  induction t with
  | nil =>
      have hk : (k2 == k) = false := by simpa using h
      simp [lookupNat, List.find?_cons, hk]
  | cons e t ih =>
      simp only [lookupNat, List.cons_append, List.find?_cons] at ih ⊢
      cases hb : (e.1 == k) with
      | true => rfl
      | false => exact ih

theorem lookupNat_append_single_self (t : List (String × Nat)) (k2 : String)
    (v : Nat) (hnone : t.any (fun e => e.1 == k2) = false) :
    lookupNat (t ++ [(k2, v)]) k2 = some v := by
  induction t with
  | nil => simp [lookupNat, List.find?_cons]
  | cons e t ih =>
      have hb : (e.1 == k2) = false := by
        cases hbb : (e.1 == k2) with
        | false => rfl
        | true => simp [List.any_cons, hbb] at hnone
      have ht : t.any (fun e => e.1 == k2) = false := by
        simpa [List.any_cons, hb] using hnone
      simp only [lookupNat, List.cons_append, List.find?_cons, hb] at ih ⊢
      exact ih ht

theorem lookupNat_dictSetNat_ne (d : List (String × Nat)) (k2 k : String)
    (v : Nat) (h : k2 ≠ k) :
    lookupNat (dictSetNat d k2 v) k = lookupNat d k := by
  by_cases hany : d.any (fun e => e.1 == k2) = true
  · simp only [dictSetNat, hany, if_true]
    exact lookupNat_map_update_ne d k2 k v h
  · simp only [dictSetNat, hany, if_false, Bool.false_eq_true]
    exact lookupNat_append_single_ne d k2 k v h

theorem lookupNat_dictSetNat_self (d : List (String × Nat)) (k : String)
    (v : Nat) :
    lookupNat (dictSetNat d k v) k = some v := by
  by_cases hany : d.any (fun e => e.1 == k) = true
  · simp only [dictSetNat, hany, if_true]
    exact lookupNat_map_update_self d k v hany
  · have hfalse : d.any (fun e => e.1 == k) = false := by
      cases hc : d.any (fun e => e.1 == k) with
      | false => rfl
      | true => exact absurd hc hany
    simp only [dictSetNat, hany, if_false, Bool.false_eq_true]
    exact lookupNat_append_single_self d k v hfalse

theorem any_key_dictSetNat (d : List (String × Nat)) (k k0 : String) (v : Nat) :
    (dictSetNat d k v).any (fun e => e.1 == k0)
      = (d.any (fun e => e.1 == k0) || (k == k0)) := by
  by_cases hany : d.any (fun e => e.1 == k) = true
  · simp only [dictSetNat, hany, if_true]
    rw [any_keys_map_update]
    by_cases hk : k = k0
    · subst hk
      simp [hany]
    · simp [hk]
  · simp only [dictSetNat, hany, if_false, Bool.false_eq_true]
    simp [List.any_append]

theorem lookupNat_foldl_preserve (rawKey : String) (t : List Val) (m : Nat)
    (acc : List (String × Nat)) (k0 : String)
    (hk : ∀ r ∈ t, pyStrOpt (vget r rawKey) ≠ k0) :
    lookupNat ((List.enumFrom m t).foldl
      (fun a iv => dictSetNat a (pyStrOpt (vget iv.2 rawKey)) iv.1) acc) k0
      = lookupNat acc k0 := by
  induction t generalizing m acc with
  | nil => rfl
  | cons r t2 ih =>
      rw [List.enumFrom_cons, List.foldl_cons]
      rw [ih (m + 1) _ (fun r2 h2 => hk r2 (List.mem_cons_of_mem r h2))]
      exact lookupNat_dictSetNat_ne _ _ _ _ (hk r (List.mem_cons_self r t2))

theorem roleIdLookup_foldl_aux (rawKey : String) (roles : List Val) (n : Nat)
    (acc : List (String × Nat))
    (hnacc : ∀ r ∈ roles, acc.any (fun e => e.1 == pyStrOpt (vget r rawKey)) = false)
    (hnodup : (roles.map fun r => pyStrOpt (vget r rawKey)).Nodup) :
    ∀ i (h : i < roles.length),
      lookupNat ((List.enumFrom n roles).foldl
        (fun a iv => dictSetNat a (pyStrOpt (vget iv.2 rawKey)) iv.1) acc)
        (pyStrOpt (vget (roles.get ⟨i, h⟩) rawKey)) = some (n + i) := by
  induction roles generalizing n acc with
  | nil => intro i h; simp at h
  | cons r t ih =>
      intro i h
      rw [List.enumFrom_cons, List.foldl_cons]
      have hhead : ∀ r2 ∈ t, pyStrOpt (vget r2 rawKey) ≠ pyStrOpt (vget r rawKey) := by
        rw [List.map_cons, List.nodup_cons] at hnodup
        intro r2 h2 hc
        exact hnodup.1 (hc ▸ List.mem_map_of_mem _ h2)
      match i with
      | 0 =>
          simp only [List.get]
          rw [lookupNat_foldl_preserve rawKey t (n + 1) _ _ hhead]
          simpa using lookupNat_dictSetNat_self acc (pyStrOpt (vget r rawKey)) n
      | i2 + 1 =>
          have h2 : i2 < t.length := by simpa using h
          have hnacc2 : ∀ r2 ∈ t,
              (dictSetNat acc (pyStrOpt (vget r rawKey)) n).any
                (fun e => e.1 == pyStrOpt (vget r2 rawKey)) = false := by
            intro r2 hr2
            rw [any_key_dictSetNat]
            have e1 : acc.any (fun e => e.1 == pyStrOpt (vget r2 rawKey)) = false :=
              hnacc r2 (List.mem_cons_of_mem r hr2)
            have e2 : (pyStrOpt (vget r rawKey) == pyStrOpt (vget r2 rawKey)) = false := by
              have := hhead r2 hr2
              simpa using fun hc => this hc.symm
            simp [e1, e2]
          have hnodup2 : (t.map fun r2 => pyStrOpt (vget r2 rawKey)).Nodup := by
            rw [List.map_cons, List.nodup_cons] at hnodup
            exact hnodup.2
          have := ih (n + 1) _ hnacc2 hnodup2 i2 h2
          simpa [Nat.add_assoc, Nat.add_comm 1 i2] using this

theorem roleIdLookupFrom_get (rawKey : String) (roles : List Val)
    (hnodup : (roles.map fun r => pyStrOpt (vget r rawKey)).Nodup) :
    ∀ i (h : i < roles.length),
      lookupNat (roleIdLookupFrom rawKey roles)
        (pyStrOpt (vget (roles.get ⟨i, h⟩) rawKey)) = some (i + 1) := by
  intro i h
  have := roleIdLookup_foldl_aux rawKey roles 1 [] (by intro r _; rfl) hnodup i h
  simpa [roleIdLookupFrom, Nat.add_comm 1 i] using this

/-! ### The assembled configurations, characterized -/

theorem fFinalize_agent_roles_get (mb rolesPhases sb gb rpb ab : Val) :
    ∀ i (h : i < (fFinalize mb rolesPhases sb gb rpb ab).1.agent_roles.length),
      ((fFinalize mb rolesPhases sb gb rpb ab).1.agent_roles.get ⟨i, h⟩).role_id
        = i + 1 := by
  intro i h
  rw [List.get_eq_getElem]
  simp only [fFinalize] at h ⊢
  simp [List.getElem_map, List.getElem_enumFrom, fBuildAgentRole, Nat.add_comm]

theorem fFinalize_prompts (mb rolesPhases sb gb rpb ab : Val) :
    ∀ ar ∈ (fFinalize mb rolesPhases sb gb rpb ab).1.agent_roles,
      ar.prompts = (asList (vgetD rpb "role_prompts" (.vlist []))).filterMap
        (targetEntryFor (fAttachTarget (roleIdLookupFrom "role_id_raw"
          (asList (vgetD rolesPhases "roles" (.vlist []))))) ar.role_id) := by
  intro ar har
  simp only [fFinalize, List.mem_map] at har
  obtain ⟨ar0, har0, rfl⟩ := har
  have hfun : fAttachStep (roleIdLookupFrom "role_id_raw"
      (asList (vgetD rolesPhases "roles" (.vlist []))))
      = stepOfTarget (fAttachTarget (roleIdLookupFrom "role_id_raw"
        (asList (vgetD rolesPhases "roles" (.vlist []))))) :=
    funext fun bs => funext fun rp => fAttachStep_eq_stepOfTarget _ bs rp
  have har0m : ar0 ∈ (List.enumFrom 1
      (asList (vgetD rolesPhases "roles" (.vlist [])))).map
      (fun iv => fBuildAgentRole iv.1 iv.2) := List.mem_map.mpr har0
  have hkey : bucketHasKey (bucketsInit
      (((List.enumFrom 1 (asList (vgetD rolesPhases "roles" (.vlist [])))).map
        (fun iv => fBuildAgentRole iv.1 iv.2)).map (fun ar => ar.role_id)))
      ar0.role_id = true :=
    bucketHasKey_bucketsInit _ _ (List.mem_map_of_mem _ har0m)
  simp only [hfun]
  rw [bucketGet_foldl_stepOfTarget _ _ _ _ hkey, bucketGet_bucketsInit]
  simp

theorem fFinalize_agents (mb rolesPhases sb gb rpb ab : Val) :
    (fFinalize mb rolesPhases sb gb rpb ab).1.agents
      = (asList (vgetD ab "agents" (.vlist []))).filterMap
        (fAgentSpec (roleIdLookupFrom "role_id_raw"
          (asList (vgetD rolesPhases "roles" (.vlist []))))) := by
  simp only [fFinalize]
  exact fBuildAgents_eq _ _

theorem rFinalize_prompts (parsed : Val) (metaRes rolesRes stateRes rolePromptsRes
    agentsRes managerRes runnerRes : Option Val) :
    ∀ ar ∈ (rFinalize parsed metaRes rolesRes stateRes rolePromptsRes agentsRes
        managerRes runnerRes).1.agent_roles,
      ar.prompts = (if truthyOpt rolePromptsRes then
          asList (vgetD (rolePromptsRes.getD (.vdict [])) "role_prompts" (.vlist []))
        else []).filterMap
        (targetEntryFor (rAttachTarget (roleIdLookupFrom "raw_role_id"
          (if truthyOpt rolesRes then
            asList (vgetD (rolesRes.getD (.vdict [])) "agent_roles" (.vlist []))
          else []))) ar.role_id) := by
  intro ar har
  simp only [rFinalize, List.mem_map] at har
  obtain ⟨ar0, har0, rfl⟩ := har
  have hfun : rAttachStep (roleIdLookupFrom "raw_role_id"
      (if truthyOpt rolesRes then
        asList (vgetD (rolesRes.getD (.vdict [])) "agent_roles" (.vlist []))
      else []))
      = stepOfTarget (rAttachTarget (roleIdLookupFrom "raw_role_id"
        (if truthyOpt rolesRes then
          asList (vgetD (rolesRes.getD (.vdict [])) "agent_roles" (.vlist []))
        else []))) :=
    funext fun bs => funext fun rp => rAttachStep_eq_stepOfTarget _ bs rp
  have har0m : ar0 ∈ (List.enumFrom 1
      (if truthyOpt rolesRes then
        asList (vgetD (rolesRes.getD (.vdict [])) "agent_roles" (.vlist []))
      else [])).map
      (fun iv => rBuildAgentRole iv.1 iv.2) := List.mem_map.mpr har0
  have hkey : bucketHasKey (bucketsInit
      (((List.enumFrom 1 (if truthyOpt rolesRes then
          asList (vgetD (rolesRes.getD (.vdict [])) "agent_roles" (.vlist []))
        else [])).map
        (fun iv => rBuildAgentRole iv.1 iv.2)).map (fun ar => ar.role_id)))
      ar0.role_id = true :=
    bucketHasKey_bucketsInit _ _ (List.mem_map_of_mem _ har0m)
  simp only [hfun]
  rw [bucketGet_foldl_stepOfTarget _ _ _ _ hkey, bucketGet_bucketsInit]
  simp

theorem rFinalize_agents (parsed : Val) (metaRes rolesRes stateRes rolePromptsRes
    agentsRes managerRes runnerRes : Option Val) :
    (rFinalize parsed metaRes rolesRes stateRes rolePromptsRes agentsRes
        managerRes runnerRes).1.agents
      = (if truthyOpt agentsRes then
          asList (vgetD (agentsRes.getD (.vdict [])) "agents" (.vlist []))
        else []).filterMap
        (rAgentSpec (roleIdLookupFrom "raw_role_id"
          (if truthyOpt rolesRes then
            asList (vgetD (rolesRes.getD (.vdict [])) "agent_roles" (.vlist []))
          else []))) := by
  simp only [rFinalize]
  exact rBuildAgents_eq _ _

/-! ## C8 — `advance()` / `next_stage` -/

/-- C8 (amended): advancing before the last stage increments the cursor by
exactly one, resets the run state to idle and returns the new stage's
identifier; at the last stage the parse pipeline leaves the cursor
unchanged, sets the run state to `SUCCESS` and returns nothing, while the
rewrite interpreter leaves both the cursor *and* the run state unchanged
and returns nothing; under neither version does the cursor ever decrease.
(The parse pipeline has 4 stages, cursor 0–3; the rewrite has 8, cursor
0–7.) -/
theorem advance_cursor_behavior (i : Nat) (s : ParserState) (t : InterpStageState) :
    (i < 3 → pNextStage i s = (i + 1, ParserState.IDLE,
      some (pStageValue (pStages.getD (i + 1) .metaRolesPhases))))
    ∧ (¬ i < 3 → pNextStage i s = (i, ParserState.SUCCESS, none))
    ∧ i ≤ (pNextStage i s).1
    ∧ (i < 7 → rNextStage i t = (i + 1, InterpStageState.IDLE,
      some (rStages.getD (i + 1) .meta)))
    ∧ (¬ i < 7 → rNextStage i t = (i, t, none))
    ∧ i ≤ (rNextStage i t).1 := by
  have hp : pStages.length - 1 = 3 := rfl
  have hr : rStages.length - 1 = 7 := rfl
  refine ⟨fun h => ?_, fun h => ?_, ?_, fun h => ?_, fun h => ?_, ?_⟩
  · simp [pNextStage, hp, h]
  · simp [pNextStage, hp, h]
  · unfold pNextStage; split <;> simp
  · simp [rNextStage, hr, h]
  · simp [rNextStage, hr, h]
  · unfold rNextStage; split <;> simp

/-- Witness for `advance_cursor_behavior` at concrete cursors 1 and 7. -/
theorem advance_cursor_behavior_witness :
    pNextStage 1 ParserState.ERROR = (2, ParserState.IDLE, some "settings_ui")
    ∧ rNextStage 7 InterpStageState.WAITING = (7, InterpStageState.WAITING, none) := by
  constructor
  · exact (advance_cursor_behavior 1 ParserState.ERROR InterpStageState.WAITING).1
      (by omega)
  · exact (advance_cursor_behavior 7 ParserState.ERROR
      InterpStageState.WAITING).2.2.2.2.1 (by omega)

/-- C8 counterexample: the rewrite interpreter's `next_stage` at the last
stage does **not** set the run state to success — it returns `None` leaving
the state untouched (here: `ERROR` stays `ERROR`). -/
theorem rewrite_advance_keeps_state_at_last :
    rNextStage 7 InterpStageState.ERROR = (7, InterpStageState.ERROR, none)
    ∧ InterpStageState.ERROR ≠ InterpStageState.SUCCESS := by
  exact ⟨rfl, by decide⟩

/-! ## C7 — `all_stages_successful` -/

/-- C7 (amended): `all_stages_successful()` is true iff every stage's
result is set **and truthy** (Python truthiness) — a stored falsy result
such as an empty object makes it false even though the `StageResult` is
non-null.  Stated for both pipelines that define the function. -/
theorem all_stages_successful_iff_truthy (ir : IStage → Option Val)
    (pr : PStage → Option Val) :
    (iAllStagesSuccessful ir = true ↔
      ∀ s ∈ iStages, ∃ v, ir s = some v ∧ truthy v = true)
    ∧ (pAllStagesSuccessful pr = true ↔
      ∀ s ∈ pStages, ∃ v, pr s = some v ∧ truthy v = true) := by
  constructor <;>
    simp [iAllStagesSuccessful, pAllStagesSuccessful, List.all_eq_true,
      truthyOpt_eq_true_iff]

/-- Witness for `all_stages_successful_iff_truthy`: with every stage
holding a truthy result, the function returns true. -/
theorem all_stages_successful_iff_truthy_witness :
    iAllStagesSuccessful (fun _ => some (Val.vstr "x")) = true :=
  (all_stages_successful_iff_truthy (fun _ => some (Val.vstr "x"))
      (fun _ => some (Val.vstr "x"))).1.mpr
    (by intro s _; exact ⟨Val.vstr "x", rfl, rfl⟩)

/-- C7 counterexample: in `interpret_in_stages.py` an empty JSON object is
a storable stage result (the response `{"meta": {}}` stores `{}` for the
meta stage and reports success), yet `all_stages_successful()` is false on
a state where every stage — including meta, holding `{}` — has a non-null
result: non-nullness does not suffice. -/
theorem all_stages_successful_nonnull_counterexample :
    ((iProcessStageResponse
        ⟨fun _ => none, fun _ => none, [], InterpreterState.IDLE⟩ IStage.meta
        (Except.ok (Val.vdict [("meta", Val.vdict [])]))).stageResults IStage.meta
      = some (Val.vdict []))
    ∧ ((iProcessStageResponse
        ⟨fun _ => none, fun _ => none, [], InterpreterState.IDLE⟩ IStage.meta
        (Except.ok (Val.vdict [("meta", Val.vdict [])]))).runState
      = InterpreterState.SUCCESS)
    ∧ iAllStagesSuccessful
        (fun s => if s = IStage.meta then some (Val.vdict []) else some (Val.vstr "ok"))
      = false
    ∧ (∀ s : IStage,
        ((if s = IStage.meta then some (Val.vdict []) else some (Val.vstr "ok") :
          Option Val)).isSome = true) := by
  refine ⟨rfl, rfl, by decide, fun s => ?_⟩
  cases s <;> rfl

/-! ## C5 — stage response parse failure -/

/-- C5 (amended): on a JSON parse failure the recorded `StageError`
contains the parse exception's description **and** the raw response text,
the run state becomes error, and every stage's result is left unchanged —
but the parse pipeline (`parse_in_stages.py`) embeds the *entire* raw
response with no truncation, while the full interpreter
(`interpret_in_stages_full.py`) truncates to the first 500 characters (the
rewrite, not restated here, truncates to 300). -/
theorem process_response_parse_failure (p : ParseSnapshot) (q : FullSnapshot)
    (stage : PStage) (fstage : FStage) (response e : String) :
    ((pProcessStageResponse p stage response (.error e)).stageErrors stage
      = some ("Invalid JSON: " ++ e ++ "\nRaw response:\n" ++ response))
    ∧ (pProcessStageResponse p stage response (.error e)).runState = ParserState.ERROR
    ∧ (∀ s, (pProcessStageResponse p stage response (.error e)).stageResults s
        = p.stageResults s)
    ∧ ((fProcessResponse q fstage response (.error e)).errors fstage
      = some ("Invalid JSON: " ++ e ++ ". Raw: " ++ response.take 500))
    ∧ (fProcessResponse q fstage response (.error e)).runState = InterpStageState.ERROR
    ∧ (∀ s, (fProcessResponse q fstage response (.error e)).results s = q.results s) := by
  refine ⟨by simp [pProcessStageResponse], rfl, fun s => rfl,
    by simp [fProcessResponse], rfl, fun s => rfl⟩

/-- C5 counterexample: for a 600-character unparseable response, the parse
pipeline's recorded error embeds all 600 characters verbatim — the raw text
is *not* truncated to the first 300–500 characters as claimed. -/
theorem parse_error_untruncated_counterexample :
    ((pProcessStageResponse
        ⟨fun _ => none, fun _ => none, ParserState.IDLE, []⟩ PStage.state
        (String.mk (List.replicate 600 'a'))
        (Except.error "Expecting value: line 1 column 1 (char 0)")).stageErrors
        PStage.state
      = some ("Invalid JSON: Expecting value: line 1 column 1 (char 0)"
          ++ "\nRaw response:\n" ++ String.mk (List.replicate 600 'a')))
    ∧ (String.mk (List.replicate 600 'a')).length = 600 := by
  constructor
  · rfl
  · rw [String.length_mk, List.length_replicate]

/-! ## C6 — retry-with-feedback prompt composition -/

/-- C6 (amended): the retry prompt is composed of labelled sections in this
fixed order — the stage header (with, in the parse pipeline, the context
block), then the previous raw model response (if any), then the previous
error message (if any), then the human feedback (if any), and the stage's
standard prompt **last** (not first, as claimed); absent optional sections
are omitted.  Stated for both cited versions
(`parse_in_stages.py` and `interpret_in_stages.py`). -/
theorem retry_prompt_sections_order (sv ctx base : String)
    (pr er fb : Option String) :
    pCreateRetryWithFeedbackPrompt sv ctx base pr er fb
      = "You are parsing stage: " ++ (sv ++ ("." ++ ("\n" ++ (ctx
        ++ (optSec "\n--- PREVIOUS LLM RESPONSE ---\n" (pr.getD "")
        ++ (optSec "\n--- ERROR MESSAGE ---\n" (er.getD "")
        ++ (optSec "\n--- HUMAN FEEDBACK ---\n" (fb.getD "")
        ++ ("\n" ++ ("\n--- STANDARD PROMPT ---\n" ++ base)))))))))
    ∧ iCreateRetryWithFeedbackPrompt sv base pr er fb
      = "You are interpreting stage: " ++ (sv ++ ("."
        ++ (optSec "\n--- PREVIOUS LLM RESPONSE ---\n" (pr.getD "")
        ++ (optSec "\n--- ERROR MESSAGE ---\n" (er.getD "")
        ++ (optSec "\n--- HUMAN FEEDBACK ---\n" (fb.getD "")
        ++ ("\n" ++ ("\n--- STANDARD PROMPT ---\n" ++ base))))))) := by
  obtain _ | f := fb <;>
    [skip; by_cases hf : f = ""] <;>
    by_cases hp : pr.getD "" = "" <;>
    by_cases he : er.getD "" = "" <;>
    constructor <;>
    simp [pCreateRetryWithFeedbackPrompt, iCreateRetryWithFeedbackPrompt,
      pRetrySections, pyJoin, optSec, hp, he, *, String.append_assoc,
      String.append_empty, String.empty_append]

/-- Witness for `retry_prompt_sections_order` (no section absent). -/
theorem retry_prompt_sections_order_witness :
    pCreateRetryWithFeedbackPrompt "meta_roles_phases" "CTX" "BASE"
      (some "PREV") (some "ERR") (some "FB")
      = "You are parsing stage: " ++ ("meta_roles_phases" ++ ("." ++ ("\n" ++ ("CTX"
        ++ (optSec "\n--- PREVIOUS LLM RESPONSE ---\n" "PREV"
        ++ (optSec "\n--- ERROR MESSAGE ---\n" "ERR"
        ++ (optSec "\n--- HUMAN FEEDBACK ---\n" "FB"
        ++ ("\n" ++ ("\n--- STANDARD PROMPT ---\n" ++ "BASE"))))))))) :=
  (retry_prompt_sections_order "meta_roles_phases" "CTX" "BASE"
    (some "PREV") (some "ERR") (some "FB")).1

/-- C6 counterexample: with all sections present, the constructed retry
prompt places the standard prompt section *after* the human-feedback
section (it appears last), so the prompt differs from the claimed
composition in which the standard prompt comes first. -/
theorem retry_prompt_standard_last_counterexample :
    pCreateRetryWithFeedbackPrompt "meta_roles_phases" "CTX" "BASEPROMPT"
      (some "PREV") (some "ERRMSG") (some "FEEDBACK")
      = "You are parsing stage: meta_roles_phases.\nCTX\n\n--- PREVIOUS LLM RESPONSE ---\nPREV\n\n--- ERROR MESSAGE ---\nERRMSG\n\n--- HUMAN FEEDBACK ---\nFEEDBACK\n\n--- STANDARD PROMPT ---\nBASEPROMPT"
    ∧ pCreateRetryWithFeedbackPrompt "meta_roles_phases" "CTX" "BASEPROMPT"
      (some "PREV") (some "ERRMSG") (some "FEEDBACK")
      ≠ retryPromptClaimOrder "meta_roles_phases" "CTX" "BASEPROMPT"
        (some "PREV") (some "ERRMSG") (some "FEEDBACK") := by
  exact ⟨rfl, by decide⟩

/-! ### Sentinel stripping -/

theorem sentinel_guard_ne (v repl : Val) (hrepl : repl ≠ .vstr cannotInfer) :
    (if v == Val.vstr cannotInfer then repl else v) ≠ Val.vstr cannotInfer := by
  by_cases h : (v == Val.vstr cannotInfer) = true
  · simpa [h] using hrepl
  · simpa [h] using by simpa using h

theorem normalizedContent_ne_sentinel (c : Val) :
    normalizedContent c ≠ Val.vstr cannotInfer := by
  unfold normalizedContent
  exact sentinel_guard_ne c (.vstr "") (by simp [cannotInfer])

theorem mergeStep_mem (acc : List (Val × Val)) (pp : Val) (kv : Val × Val)
    (h : kv ∈ mergeStep acc pp) :
    kv ∈ acc ∨ kv.2 = normalizedContent (vgetD pp "content" (.vstr "")) := by
  simp only [mergeStep] at h
  split at h
  · exact Or.inl h
  · rename_i n hn
    split at h
    · exact Or.inl h
    · split at h
      · rcases List.mem_append.mp h with h2 | h2
        · exact Or.inl h2
        · right
          have h3 : kv = (n, normalizedContent (vgetD pp "content" (.vstr ""))) := by
            simpa using h2
          rw [h3]
      · split at h
        · rcases List.mem_map.mp h with ⟨e, he, hke⟩
          by_cases hek : (e.1 == n) = true
          · right
            rw [← hke]
            simp [hek]
          · left
            rw [← hke]
            simpa [hek] using he
        · exact Or.inl h

theorem mergePartials_content_ne (pps : List Val) :
    ∀ kv ∈ mergePartials pps, kv.2 ≠ Val.vstr cannotInfer := by
  have haux : ∀ (l : List Val) (acc : List (Val × Val)),
      (∀ kv ∈ acc, kv.2 ≠ Val.vstr cannotInfer) →
      ∀ kv ∈ l.foldl mergeStep acc, kv.2 ≠ Val.vstr cannotInfer := by
    intro l
    induction l with
    | nil => intro acc hacc kv h; exact hacc kv h
    | cons pp t ih =>
        intro acc hacc kv h
        refine ih (mergeStep acc pp) ?_ kv h
        intro kv2 h2
        rcases mergeStep_mem acc pp kv2 h2 with h3 | h3
        · exact hacc kv2 h3
        · rw [h3]
          exact normalizedContent_ne_sentinel _
  exact haux pps [] (by intro kv h; simp at h)

theorem fAttachTarget_value_ne (lookup : List (String × Nat)) (rp : Val)
    (rid : Nat) (e : RolePromptEntry) (h : fAttachTarget lookup rp = some (rid, e)) :
    e.value ≠ Val.vstr cannotInfer := by
  unfold fAttachTarget at h
  by_cases ht : (vgetD rp "text" (.vstr "") == Val.vstr cannotInfer) = true
  · simp [ht] at h
  · rcases hl : lookupNat lookup (pyStrOpt (vget rp "role_identifier")) with _ | rid2
    · simp [ht, hl] at h
    · by_cases hk : (vgetD rp "kind" .vnull == Val.vstr "system"
          || vgetD rp "kind" .vnull == Val.vstr "user") = true
      · simp only [ht, hl, hk, Bool.false_eq_true, if_false, if_true] at h
        have he : RolePromptEntry.mk (vgetD rp "kind" Val.vnull)
            (vgetD rp "text" (Val.vstr "")) = e :=
          congrArg Prod.snd (Option.some.inj h)
        rw [← he]
        intro hc
        have hc2 : vgetD rp "text" (.vstr "") = Val.vstr cannotInfer := hc
        exact ht (by simp [hc2])
      · simp [ht, hl, hk] at h

theorem fBuildField_normalized (f : Val) (sf : StateFieldConfig)
    (h : fBuildField f = some sf) :
    sf.type ≠ Val.vstr cannotInfer ∧ sf.default ≠ Val.vstr cannotInfer := by
  simp only [fBuildField] at h
  split at h
  · split at h
    · exact absurd h (by simp)
    · have hsf := Option.some.inj h
      rw [← hsf]
      exact ⟨sentinel_guard_ne _ _ (by simp [cannotInfer]),
        sentinel_guard_ne _ _ (by simp)⟩
  · split at h
    · exact absurd h (by simp)
    · have hsf := Option.some.inj h
      rw [← hsf]
      exact ⟨sentinel_guard_ne _ _ (by simp [cannotInfer]),
        sentinel_guard_ne _ _ (by simp)⟩

/-! ## C3 — sentinel normalization -/

/-- C3 (amended): sentinel normalization is per-field, not uniform.  In the
full interpreter's assembler the experiment name and description, every
merged partial content, every role's `llm_type` and every attached role
prompt text, and every state field's type and default are normalized away
from the literal `"cannot infer"`; but role *names* pass through verbatim
there, and the rewrite assembler keeps the sentinel in its meta, manager
and runner fields (per its own "keep \x27cannot infer\x27 strings intact"
comment). -/
theorem sentinel_normalized_fields (mb rolesPhases sb gb rpb ab : Val) :
    (fFinalize mb rolesPhases sb gb rpb ab).1.name ≠ Val.vstr cannotInfer
    ∧ (fFinalize mb rolesPhases sb gb rpb ab).1.description ≠ Val.vstr cannotInfer
    ∧ (∀ p ∈ (fFinalize mb rolesPhases sb gb rpb ab).1.prompt_partials,
        p.content ≠ Val.vstr cannotInfer)
    ∧ (∀ ar ∈ (fFinalize mb rolesPhases sb gb rpb ab).1.agent_roles,
        ar.llm_type ≠ Val.vstr cannotInfer
        ∧ ∀ pe ∈ ar.prompts, pe.value ≠ Val.vstr cannotInfer)
    ∧ (∀ f ∈ (fFinalize mb rolesPhases sb gb rpb ab).1.state.meta_information
          ++ (fFinalize mb rolesPhases sb gb rpb ab).1.state.private_information
          ++ (fFinalize mb rolesPhases sb gb rpb ab).1.state.public_information,
        f.type ≠ Val.vstr cannotInfer ∧ f.default ≠ Val.vstr cannotInfer) := by
  refine ⟨?_, ?_, ?_, ?_, ?_⟩
  · simp only [fFinalize]
    exact sentinel_guard_ne _ _ (by simp [cannotInfer])
  · simp only [fFinalize]
    exact sentinel_guard_ne _ _ (by simp [cannotInfer])
  · intro p hp
    simp only [fFinalize, List.mem_map] at hp
    obtain ⟨kv, hkv, rfl⟩ := hp
    exact mergePartials_content_ne _ kv hkv
  · intro ar har
    refine ⟨?_, ?_⟩
    · simp only [fFinalize, List.mem_map] at har
      obtain ⟨ar0, har0, rfl⟩ := har
      obtain ⟨iv, hiv, rfl⟩ := har0
      simp only [fBuildAgentRole]
      exact sentinel_guard_ne _ _ (by simp)
    · intro pe hpe
      rw [fFinalize_prompts mb rolesPhases sb gb rpb ab ar har] at hpe
      rcases List.mem_filterMap.mp hpe with ⟨rp, _, htg⟩
      unfold targetEntryFor at htg
      split at htg
      · exact absurd htg (by simp)
      · rename_i rid e hg
        split at htg
        · have hepe := Option.some.inj htg
          rw [← hepe]
          exact fAttachTarget_value_ne _ rp rid e hg
        · exact absurd htg (by simp)
  · intro f hf
    simp only [fFinalize] at hf
    rcases List.mem_append.mp hf with hf2 | hf2
    · rcases List.mem_append.mp hf2 with hf3 | hf3 <;>
      · rcases List.mem_filterMap.mp hf3 with ⟨x, _, hx⟩
        exact fBuildField_normalized x f hx
    · rcases List.mem_filterMap.mp hf2 with ⟨x, _, hx⟩
      exact fBuildField_normalized x f hx

/-- Witness for `sentinel_normalized_fields`: with a meta name and a partial
content both equal to the sentinel, the assembled name and the merged
partial's content are not the sentinel. -/
theorem sentinel_normalized_fields_witness :
    ((fFinalize (Val.vdict [("meta", .vdict [("name", .vstr "cannot infer")]),
        ("prompt_partials", .vlist [.vdict [("name", .vstr "a"),
          ("content", .vstr "cannot infer")]])])
      (.vdict []) (.vdict []) (.vdict []) (.vdict []) (.vdict [])).1.name
      ≠ Val.vstr cannotInfer)
    ∧ (PromptPartial.mk (.vstr "a") (.vstr "")).content ≠ Val.vstr cannotInfer := by
  constructor
  · exact (sentinel_normalized_fields (Val.vdict [("meta", .vdict
      [("name", .vstr "cannot infer")]), ("prompt_partials", .vlist
      [.vdict [("name", .vstr "a"), ("content", .vstr "cannot infer")]])])
      (.vdict []) (.vdict []) (.vdict []) (.vdict []) (.vdict [])).1
  · exact (sentinel_normalized_fields (Val.vdict [("meta", .vdict
      [("name", .vstr "cannot infer")]), ("prompt_partials", .vlist
      [.vdict [("name", .vstr "a"), ("content", .vstr "cannot infer")]])])
      (.vdict []) (.vdict []) (.vdict []) (.vdict []) (.vdict [])).2.2.1
      (PromptPartial.mk (.vstr "a") (.vstr "")) (by decide)

/-- C3 counterexample: when the runner stage's StageResult carries
`"cannot infer"` as the runner type, the rewrite assembler's output document
contains the literal verbatim — it is not replaced by any default. -/
theorem sentinel_kept_verbatim_counterexample :
    (rFinalize (.vdict []) none none none none none none
      (some (.vdict [("runner", .vdict [("type", .vstr "cannot infer")])]))).1.runner.type
      = Val.vstr "cannot infer" := by
  rfl

/-! ### Merge dict lemmas (Val-keyed `merged_partials`) -/

theorem mergeUpd_head_fst (e : Val × Val) (n v2 : Val) :
    (if e.1 == n then (e.1, v2) else e).1 = e.1 := by
  split <;> rfl

theorem lookupVal_map_update_found (acc : List (Val × Val)) (n v2 ex : Val)
    (hl : lookupVal acc n = some ex) :
    lookupVal (acc.map (fun e => if e.1 == n then (e.1, v2) else e)) n = some v2 := by
  induction acc with
  | nil => simp [lookupVal] at hl
  | cons e t ih =>
      simp only [lookupVal, List.map_cons, List.find?_cons] at hl ih ⊢
      have hph : ((if e.1 == n then (e.1, v2) else e).1 == n) = (e.1 == n) := by
        rw [mergeUpd_head_fst]
      cases hb : (e.1 == n) with
      | true => simp [hph, hb]
      | false =>
          have hred : (if false = true then (e.1, v2) else e) = e := rfl
          rw [hred, hb]
          rw [hb] at hl
          exact ih hl

theorem lookupVal_map_update_ne (acc : List (Val × Val)) (m n v2 : Val)
    (h : (m == n) = false) :
    lookupVal (acc.map (fun e => if e.1 == m then (e.1, v2) else e)) n
      = lookupVal acc n := by
  induction acc with
  | nil => rfl
  | cons e t ih =>
      simp only [lookupVal, List.map_cons, List.find?_cons] at ih ⊢
      have hph : ((if e.1 == m then (e.1, v2) else e).1 == n) = (e.1 == n) := by
        rw [mergeUpd_head_fst]
      cases hb : (e.1 == n) with
      | true =>
          have hem : (e.1 == m) = false := by
            have h1 : e.1 = n := by simpa using hb
            have h2 : m ≠ n := by simpa using h
            have : e.1 ≠ m := by rw [h1]; exact fun hc => h2 hc.symm
            simpa using this
          simp [hph, hb, hem]
      | false =>
          rw [hph, hb]
          exact ih

theorem lookupVal_append_ne (acc : List (Val × Val)) (m n v2 : Val)
    (h : (m == n) = false) :
    lookupVal (acc ++ [(m, v2)]) n = lookupVal acc n := by
  induction acc with
  | nil => simp [lookupVal, List.find?_cons, h]
  | cons e t ih =>
      simp only [lookupVal, List.cons_append, List.find?_cons] at ih ⊢
      cases hb : (e.1 == n) with
      | true => rfl
      | false => exact ih

theorem lookupVal_append_self (acc : List (Val × Val)) (n v2 : Val)
    (h : lookupVal acc n = none) :
    lookupVal (acc ++ [(n, v2)]) n = some v2 := by
  induction acc with
  | nil => simp [lookupVal, List.find?_cons]
  | cons e t ih =>
      simp only [lookupVal, List.cons_append, List.find?_cons] at h ih ⊢
      cases hb : (e.1 == n) with
      | true => rw [hb] at h; simp at h
      | false =>
          rw [hb] at h
          exact ih h

theorem mergeContrib_some_elim (n pp c : Val) (h : mergeContrib n pp = some c) :
    ∃ m, vget pp "name" = some m ∧ truthy m = true ∧ m = n
      ∧ c = normalizedContent (vgetD pp "content" (.vstr "")) := by
  unfold mergeContrib at h
  split at h
  · exact absurd h (by simp)
  · rename_i m hm
    split at h
    · rename_i hcond
      have h2 := Bool.and_eq_true _ _ ▸ hcond
      refine ⟨m, hm, h2.1, by simpa using h2.2, (Option.some.inj h).symm⟩
    · exact absurd h (by simp)

theorem lookupVal_mergeStep_nocontrib (acc : List (Val × Val)) (pp n : Val)
    (h : mergeContrib n pp = none) :
    lookupVal (mergeStep acc pp) n = lookupVal acc n := by
  simp only [mergeStep]
  split
  · rfl
  · rename_i m hm
    split
    · rfl
    · rename_i htr
      have htr2 : truthy m = true := by simpa using htr
      have hmn : (m == n) = false := by
        simp only [mergeContrib, hm] at h
        by_cases hx : (m == n) = true
        · simp [htr2, hx] at h
        · simpa using hx
      split
      · exact lookupVal_append_ne acc m n _ hmn
      · split
        · exact lookupVal_map_update_ne acc m n _ hmn
        · rfl

theorem lookupVal_mergeStep_contrib (acc : List (Val × Val)) (pp n c : Val)
    (h : mergeContrib n pp = some c) :
    lookupVal (mergeStep acc pp) n
      = (match lookupVal acc n with
        | none => some c
        | some ex => some (if !truthy ex && truthy c then c else ex)) := by
  obtain ⟨m, hm, htr, hmn, hc⟩ := mergeContrib_some_elim n pp c h
  subst hmn
  simp only [mergeStep, hm, htr, Bool.not_true, Bool.false_eq_true, if_false]
  rcases hf : (List.find? (fun e => e.1 == m) acc).map (fun x => x.2) with _ | ex
  · have hl : lookupVal acc m = none := hf
    simp only [hf, hl]
    rw [lookupVal_append_self acc m _ hl, hc]
  · have hl : lookupVal acc m = some ex := hf
    simp only [hf, hl]
    by_cases hcond : (!truthy ex && truthy (normalizedContent
        (vgetD pp "content" (.vstr "")))) = true
    · rw [if_pos hcond, lookupVal_map_update_found acc m _ ex hl]
      rw [← hc] at hcond ⊢
      simp [hcond]
    · rw [if_neg hcond, hl]
      rw [← hc] at hcond
      simp only [Bool.not_eq_true] at hcond
      simp [hcond]

theorem mergeOutcome_nil (p : Option Val) : mergeOutcome p [] = p := by
  cases p with
  | none => rfl
  | some v => by_cases h : truthy v = true <;> simp [mergeOutcome, h]

theorem mergeOutcome_none_cons (c : Val) (cs : List Val) :
    mergeOutcome none (c :: cs) = mergeOutcome (some c) cs := by
  by_cases h : truthy c = true
  · simp [mergeOutcome, List.find?_cons, h]
  · rcases hf : cs.find? truthy with _ | w <;>
      simp [mergeOutcome, List.find?_cons, h, hf]

theorem mergeOutcome_some_cons (v c : Val) (cs : List Val) :
    mergeOutcome (some v) (c :: cs)
      = mergeOutcome (some (if !truthy v && truthy c then c else v)) cs := by
  by_cases hv : truthy v = true
  · simp [mergeOutcome, hv]
  · by_cases hc : truthy c = true
    · simp [mergeOutcome, List.find?_cons, hv, hc]
    · rcases hf : cs.find? truthy with _ | w <;>
        simp [mergeOutcome, List.find?_cons, hv, hc, hf]

theorem mergePartials_foldl_char (pps : List Val) (n : Val) :
    ∀ acc, lookupVal (pps.foldl mergeStep acc) n
      = mergeOutcome (lookupVal acc n) (pps.filterMap (mergeContrib n)) := by
  induction pps with
  | nil => intro acc; simp [mergeOutcome_nil]
  | cons pp t ih =>
      intro acc
      rw [List.foldl_cons, List.filterMap_cons]
      rcases hcon : mergeContrib n pp with _ | c
      · rw [ih, lookupVal_mergeStep_nocontrib acc pp n hcon]
      · rw [ih, lookupVal_mergeStep_contrib acc pp n c hcon]
        rcases hl : lookupVal acc n with _ | ex
        · simp [mergeOutcome_none_cons]
        · simp [mergeOutcome_some_cons]

/-! ## C4 — partial-merge preference policy -/

/-- C4: for each name `n`, the value the merge dict finally holds is the
first truthy normalized contribution for `n` (else the first contribution,
normalized; the sentinel normalizes to the falsy `""`).  Consequently a
later empty/sentinel contribution never overwrites an earlier substantive
value, a later substantive contribution replaces an earlier empty one, the
earliest substantive contribution wins among duplicates, and an entry that
contributes nothing to `n` leaves `n`'s value unchanged. -/
theorem merge_partials_policy (pps : List Val) (n pp c v : Val) :
    (lookupVal (mergePartials pps) n
      = mergeOutcome none (pps.filterMap (mergeContrib n)))
    ∧ (mergeContrib n pp = some c → truthy c = true →
        lookupVal (mergePartials pps) n = some v → truthy v = false →
        lookupVal (mergePartials (pps ++ [pp])) n = some c)
    ∧ (mergeContrib n pp = some c →
        lookupVal (mergePartials pps) n = some v → truthy v = true →
        lookupVal (mergePartials (pps ++ [pp])) n = some v)
    ∧ (mergeContrib n pp = none →
        lookupVal (mergePartials (pps ++ [pp])) n
          = lookupVal (mergePartials pps) n) := by
  have hstep : mergePartials (pps ++ [pp]) = mergeStep (mergePartials pps) pp := by
    simp [mergePartials, List.foldl_append]
  refine ⟨mergePartials_foldl_char pps n [], ?_, ?_, ?_⟩
  · intro h1 h2 h3 h4
    rw [hstep, lookupVal_mergeStep_contrib _ pp n c h1, h3]
    simp [h2, h4]
  · intro h1 h2 h3
    rw [hstep, lookupVal_mergeStep_contrib _ pp n c h1, h2]
    simp [h3]
  · intro h1
    rw [hstep, lookupVal_mergeStep_nocontrib _ pp n h1]

/-- Witness for `merge_partials_policy`: a later substantive contribution
for name `a` does not displace the earlier substantive value `x`. -/
theorem merge_partials_policy_witness :
    lookupVal (mergePartials
      ([Val.vdict [("name", .vstr "a"), ("content", .vstr "x")]]
        ++ [Val.vdict [("name", .vstr "a"), ("content", .vstr "y")]]))
      (Val.vstr "a") = some (Val.vstr "x") :=
  (merge_partials_policy [Val.vdict [("name", .vstr "a"), ("content", .vstr "x")]]
    (Val.vstr "a") (Val.vdict [("name", .vstr "a"), ("content", .vstr "y")])
    (Val.vstr "y") (Val.vstr "x")).2.2.1 (by decide) (by decide) (by decide)

/-! ### Closed-set validation of the partial-prompts stage -/

theorem vstr_beq (a b : String) : (Val.vstr a == Val.vstr b) = (a == b) := by
  by_cases h : a = b <;> simp [h]

theorem pyStr_vstr (s : String) : pyStr (Val.vstr s) = s := rfl

theorem containsValMap (base : List String) (m : String) :
    (base.map Val.vstr).contains (Val.vstr m) = base.contains m := by
  induction base with
  | nil => rfl
  | cons a t ih =>
      rw [List.map_cons, List.contains_cons, List.contains_cons, vstr_beq, ih]

theorem pyValInStrList_vstr (s : String) (expected : List String) :
    pyValInStrList (Val.vstr s) expected = expected.contains s := by
  induction expected with
  | nil => rfl
  | cons a t ih =>
      rw [List.contains_cons, ← ih, ← vstr_beq]
      rfl

theorem val_contains_eq_decide (names : List Val) (v : Val) :
    names.contains v = decide (v ∈ names) := List.elem_eq_mem v names

theorem pValidateLoop_terminal (expected : List String) (idx : Nat)
    (base : List String) :
    pValidatePartialsLoop expected [] idx (base.map Val.vstr)
      = (if !((expected.filter (fun m => !(base.contains m))).isEmpty) then
          (false, some ("Missing required partial(s): "
            ++ pyJoin ", " (expected.filter (fun m => !(base.contains m)))))
        else if !((base.filter (fun m => !(expected.contains m))).isEmpty) then
          (false, some ("Unexpected extra partial name(s): "
            ++ pyJoin ", " (base.filter (fun m => !(expected.contains m)))))
        else (true, none)) := by
  have hmiss : (expected.filter (fun n => !((base.map Val.vstr).contains (Val.vstr n))))
      = expected.filter (fun m => !(base.contains m)) :=
    List.filter_congr (fun m _ => by
      show (!((base.map Val.vstr).contains (Val.vstr m))) = (!(base.contains m))
      rw [containsValMap])
  have hextra : ((base.map Val.vstr).filter (fun n => !(pyValInStrList n expected)))
      = (base.filter (fun m => !(expected.contains m))).map Val.vstr := by
    rw [List.filter_map]
    congr 1
    exact List.filter_congr (fun m _ => by
      show (!(pyValInStrList (Val.vstr m) expected)) = (!(expected.contains m))
      rw [pyValInStrList_vstr])
  have hunfold : pValidatePartialsLoop expected [] idx (base.map Val.vstr)
      = (if !((expected.filter (fun n => !((base.map Val.vstr).contains (Val.vstr n)))).isEmpty) then
          (false, some ("Missing required partial(s): "
            ++ pyJoin ", " (expected.filter (fun n => !((base.map Val.vstr).contains (Val.vstr n))))))
        else if !(((base.map Val.vstr).filter (fun n => !(pyValInStrList n expected))).isEmpty) then
          (false, some ("Unexpected extra partial name(s): "
            ++ pyJoin ", " (((base.map Val.vstr).filter (fun n => !(pyValInStrList n expected))).map pyStr)))
        else (true, none)) := rfl
  rw [hunfold, hmiss, hextra]
  cases h1 : (expected.filter (fun m => !(base.contains m))).isEmpty with
  | false => rfl
  | true =>
      cases h2 : (base.filter (fun m => !(expected.contains m))).isEmpty with
      | true =>
          have h2m : ((base.filter (fun m => !(expected.contains m))).map Val.vstr).isEmpty
              = true := by
            rw [List.isEmpty_iff] at h2 ⊢
            rw [h2]
            rfl
          rw [h2m]
          rfl
      | false =>
          have h2m : ((base.filter (fun m => !(expected.contains m))).map Val.vstr).isEmpty
              = false := by
            cases hF : base.filter (fun m => !(expected.contains m)) with
            | nil => rw [hF] at h2; exact absurd h2 (by decide)
            | cons a t => rfl
          rw [h2m, List.map_map]
          have hid : (base.filter (fun m => !(expected.contains m))).map (pyStr ∘ Val.vstr)
              = base.filter (fun m => !(expected.contains m)) := by
            rw [show (pyStr ∘ Val.vstr) = (id : String → String) from rfl, List.map_id]
          rw [hid]

theorem pValidateLoop_wf_names (expected : List String)
    (wf : List (String × String)) :
    ∀ (idx : Nat) (names : List Val),
      (names ++ wf.map (fun w => Val.vstr w.1)).Nodup →
      pValidatePartialsLoop expected (wf.map mkPartial) idx names
        = pValidatePartialsLoop expected [] idx
          (names ++ wf.map (fun w => Val.vstr w.1)) := by
  induction wf with
  | nil =>
      intro idx names _
      rw [List.map_nil, List.map_nil, List.append_nil]
  | cons w t ih =>
      intro idx names hnd
      rw [List.map_cons] at hnd
      have hdisj := (List.nodup_append.mp hnd).2.2
      have hnotmem : Val.vstr w.1 ∉ names := fun hmem =>
        hdisj hmem (List.mem_cons_self _ _)
      have hcont : names.contains (Val.vstr w.1) = false := by
        rw [val_contains_eq_decide]
        exact decide_eq_false hnotmem
      have hstep : pValidatePartialsLoop expected (mkPartial w :: t.map mkPartial)
          idx names
          = if names.contains (Val.vstr w.1) then
              (false, some ("Duplicate partial name detected: " ++ pyStr (Val.vstr w.1)))
            else pValidatePartialsLoop expected (t.map mkPartial) (idx + 1)
              (names ++ [Val.vstr w.1]) := rfl
      rw [List.map_cons, List.map_cons, hstep, hcont]
      have hnd2 : ((names ++ [Val.vstr w.1]) ++ t.map (fun w => Val.vstr w.1)).Nodup := by
        rw [List.append_assoc]
        exact hnd
      rw [ih (idx + 1) (names ++ [Val.vstr w.1]) hnd2, List.append_assoc]
      rfl

theorem flatMap_guard {α β : Type} (p : α → Bool) (f : α → List β) (l : List α) :
    l.flatMap (fun x => if !(p x) then [] else f x) = (l.filter p).flatMap f := by
  induction l with
  | nil => rfl
  | cons a t ih =>
      cases h : p a with
      | false =>
          have e1 : (if !(p a) then ([] : List β) else f a) = [] := by
            rw [h]
            rfl
          have e2 : List.filter p (a :: t) = List.filter p t := by
            rw [List.filter_cons, h]
            rfl
          rw [List.flatMap_cons, e1, e2, List.nil_append, ih]
      | true =>
          have e1 : (if !(p a) then ([] : List β) else f a) = f a := by
            rw [h]
            rfl
          have e2 : List.filter p (a :: t) = a :: List.filter p t := by
            rw [List.filter_cons, h]
            rfl
          rw [List.flatMap_cons, e1, e2, List.flatMap_cons, ih]

theorem expectedPartialNames_eq_spec (phases : List Val) :
    expectedPartialNames phases = expectedPartialNamesSpec phases := by
  unfold expectedPartialNames expectedPartialNamesSpec
  congr 1
  have h1 : ∀ ph : Val, phaseSlotNames ph
      = if !(truthyOpt (vget ph "actionable")) then ([] : List String)
        else ((roleTasksItems ph).filter (fun rt => truthy rt.2)).flatMap
          (fun rt =>
            ["system_" ++ toSnake rt.1 ++ "_" ++ pyStrOpt (vget ph "phase_number"),
             "user_" ++ toSnake rt.1 ++ "_" ++ pyStrOpt (vget ph "phase_number")]) := by
    intro ph
    unfold phaseSlotNames
    cases h : truthyOpt (vget ph "actionable") with
    | false => rfl
    | true =>
        show (roleTasksItems ph).flatMap (fun rt =>
            if !(truthy rt.2) then []
            else ["system_" ++ toSnake rt.1 ++ "_" ++ pyStrOpt (vget ph "phase_number"),
                  "user_" ++ toSnake rt.1 ++ "_" ++ pyStrOpt (vget ph "phase_number")]) = _
        exact flatMap_guard (fun rt => truthy rt.2)
          (fun rt =>
            ["system_" ++ toSnake rt.1 ++ "_" ++ pyStrOpt (vget ph "phase_number"),
             "user_" ++ toSnake rt.1 ++ "_" ++ pyStrOpt (vget ph "phase_number")])
          (roleTasksItems ph)
  have h1f : phaseSlotNames = (fun ph =>
      if !(truthyOpt (vget ph "actionable")) then ([] : List String)
      else ((roleTasksItems ph).filter (fun rt => truthy rt.2)).flatMap
        (fun rt =>
          ["system_" ++ toSnake rt.1 ++ "_" ++ pyStrOpt (vget ph "phase_number"),
           "user_" ++ toSnake rt.1 ++ "_" ++ pyStrOpt (vget ph "phase_number")])) :=
    funext h1
  rw [h1f]
  exact flatMap_guard (fun ph => truthyOpt (vget ph "actionable"))
    (fun ph => ((roleTasksItems ph).filter (fun rt => truthy rt.2)).flatMap
      (fun rt =>
        ["system_" ++ toSnake rt.1 ++ "_" ++ pyStrOpt (vget ph "phase_number"),
         "user_" ++ toSnake rt.1 ++ "_" ++ pyStrOpt (vget ph "phase_number")]))
    phases

/-! ## C2 — closed-set validation -/

/-- C2: the expected slot-name set for the partial-prompts stage is exactly
the three fixed names followed by a `system_…`/`user_…` pair for every
actionable phase × role with a non-empty task list (the source skeleton
loop equals the spec-worded `expectedPartialNamesSpec`); and on a
well-formed, duplicate-free payload, validation fails naming the missing
expected names when any expected name is absent, fails naming the
unexpected extra names when any name falls outside the expected set, and
succeeds exactly when the name sets match. -/
theorem partial_prompts_closed_set_validation (phases : List Val)
    (wf : List (String × String)) (hnodup : (wf.map Prod.fst).Nodup) :
    expectedPartialNames phases = expectedPartialNamesSpec phases
    ∧ ((expectedPartialNames phases).filter
          (fun m => !((wf.map Prod.fst).contains m)) ≠ [] →
        pValidateStage (expectedPartialNames phases) .partialPrompts
          (Val.vdict [("prompt_partials", .vlist (wf.map mkPartial))])
          = (false, some ("Missing required partial(s): " ++ pyJoin ", "
              ((expectedPartialNames phases).filter
                (fun m => !((wf.map Prod.fst).contains m))))))
    ∧ ((expectedPartialNames phases).filter
          (fun m => !((wf.map Prod.fst).contains m)) = [] →
        (wf.map Prod.fst).filter
          (fun m => !((expectedPartialNames phases).contains m)) ≠ [] →
        pValidateStage (expectedPartialNames phases) .partialPrompts
          (Val.vdict [("prompt_partials", .vlist (wf.map mkPartial))])
          = (false, some ("Unexpected extra partial name(s): " ++ pyJoin ", "
              ((wf.map Prod.fst).filter
                (fun m => !((expectedPartialNames phases).contains m))))))
    ∧ ((expectedPartialNames phases).filter
          (fun m => !((wf.map Prod.fst).contains m)) = [] →
        (wf.map Prod.fst).filter
          (fun m => !((expectedPartialNames phases).contains m)) = [] →
        pValidateStage (expectedPartialNames phases) .partialPrompts
          (Val.vdict [("prompt_partials", .vlist (wf.map mkPartial))])
          = (true, none)) := by
  have hmap : wf.map (fun w => Val.vstr w.1) = (wf.map Prod.fst).map Val.vstr :=
    (List.map_map _ _ _).symm
  have h0 : pValidateStage (expectedPartialNames phases) .partialPrompts
      (Val.vdict [("prompt_partials", .vlist (wf.map mkPartial))])
      = pValidatePartialsLoop (expectedPartialNames phases) (wf.map mkPartial) 0 [] := rfl
  have hnd : (([] : List Val) ++ wf.map (fun w => Val.vstr w.1)).Nodup := by
    rw [List.nil_append, hmap]
    exact hnodup.map (fun a b h => Val.vstr.inj h)
  have h1 := pValidateLoop_wf_names (expectedPartialNames phases) wf 0 [] hnd
  rw [List.nil_append, hmap] at h1
  have h2 := pValidateLoop_terminal (expectedPartialNames phases) 0 (wf.map Prod.fst)
  refine ⟨expectedPartialNames_eq_spec phases, ?_, ?_, ?_⟩
  · intro hmiss
    rw [h0, h1, h2]
    have hM : ((expectedPartialNames phases).filter
        (fun m => !((wf.map Prod.fst).contains m))).isEmpty = false := by
      cases hF : (expectedPartialNames phases).filter
          (fun m => !((wf.map Prod.fst).contains m)) with
      | nil => exact absurd hF hmiss
      | cons a t => rfl
    rw [hM]
    rfl
  · intro hmiss hextra
    rw [h0, h1, h2, hmiss]
    have hE : ((wf.map Prod.fst).filter
        (fun m => !((expectedPartialNames phases).contains m))).isEmpty = false := by
      cases hF : (wf.map Prod.fst).filter
          (fun m => !((expectedPartialNames phases).contains m)) with
      | nil => exact absurd hF hextra
      | cons a t => rfl
    rw [hE]
    rfl
  · intro hmiss hextra
    rw [h0, h1, h2, hmiss, hextra]
    rfl

/-- Witness for `partial_prompts_closed_set_validation`: the spec's §8
example — a single actionable `Bid` phase with a Buyer task produces
exactly the five expected slots; a payload missing `user_buyer_1` fails
naming it; a payload with the extra `system_seller_1` fails naming it. -/
theorem partial_prompts_closed_set_validation_witness :
    expectedPartialNames [Val.vdict [("phase", .vstr "Bid"),
        ("phase_number", .vint 1), ("actionable", .vbool true),
        ("role_tasks", .vdict [("Buyer", .vlist [.vstr "submit bid"])])]]
      = ["game_description", "game_information", "game_history",
         "system_buyer_1", "user_buyer_1"]
    ∧ pValidateStage (expectedPartialNames [Val.vdict [("phase", .vstr "Bid"),
        ("phase_number", .vint 1), ("actionable", .vbool true),
        ("role_tasks", .vdict [("Buyer", .vlist [.vstr "submit bid"])])]])
        .partialPrompts
        (Val.vdict [("prompt_partials", .vlist
          ([("game_description", "d"), ("game_information", "i"),
            ("game_history", "h"), ("system_buyer_1", "s")].map mkPartial))])
      = (false, some "Missing required partial(s): user_buyer_1")
    ∧ pValidateStage (expectedPartialNames [Val.vdict [("phase", .vstr "Bid"),
        ("phase_number", .vint 1), ("actionable", .vbool true),
        ("role_tasks", .vdict [("Buyer", .vlist [.vstr "submit bid"])])]])
        .partialPrompts
        (Val.vdict [("prompt_partials", .vlist
          ([("game_description", "d"), ("game_information", "i"),
            ("game_history", "h"), ("system_buyer_1", "s"),
            ("user_buyer_1", "u"), ("system_seller_1", "x")].map mkPartial))])
      = (false, some "Unexpected extra partial name(s): system_seller_1") := by
  refine ⟨by decide, ?_, ?_⟩
  · have h := (partial_prompts_closed_set_validation
      [Val.vdict [("phase", .vstr "Bid"), ("phase_number", .vint 1),
        ("actionable", .vbool true),
        ("role_tasks", .vdict [("Buyer", .vlist [.vstr "submit bid"])])]]
      [("game_description", "d"), ("game_information", "i"),
       ("game_history", "h"), ("system_buyer_1", "s")] (by decide)).2.1 (by decide)
    exact h.trans (by decide)
  · have h := (partial_prompts_closed_set_validation
      [Val.vdict [("phase", .vstr "Bid"), ("phase_number", .vint 1),
        ("actionable", .vbool true),
        ("role_tasks", .vdict [("Buyer", .vlist [.vstr "submit bid"])])]]
      [("game_description", "d"), ("game_information", "i"),
       ("game_history", "h"), ("system_buyer_1", "s"), ("user_buyer_1", "u"),
       ("system_seller_1", "x")] (by decide)).2.2.1 (by decide) (by decide)
    exact h.trans (by decide)

/-! ## C9 — duplicate partial names -/

theorem pValidateLoop_dup (expected : List String) (n c : String)
    (rest : List Val) (pre : List (String × String)) :
    ∀ (idx : Nat) (names : List Val),
      (names ++ pre.map (fun w => Val.vstr w.1)).Nodup →
      Val.vstr n ∈ names ++ pre.map (fun w => Val.vstr w.1) →
      pValidatePartialsLoop expected
        (pre.map mkPartial ++ (mkPartial (n, c) :: rest)) idx names
        = (false, some ("Duplicate partial name detected: " ++ n)) := by
  induction pre with
  | nil =>
      intro idx names _ hmem
      rw [List.map_nil, List.append_nil] at hmem
      rw [List.map_nil, List.nil_append]
      have hcont : names.contains (Val.vstr n) = true := by
        rw [val_contains_eq_decide]
        exact decide_eq_true hmem
      have hstep : pValidatePartialsLoop expected (mkPartial (n, c) :: rest) idx names
          = if names.contains (Val.vstr n) then
              (false, some ("Duplicate partial name detected: " ++ pyStr (Val.vstr n)))
            else pValidatePartialsLoop expected rest (idx + 1)
              (names ++ [Val.vstr n]) := rfl
      rw [hstep, hcont]
      rfl
  | cons w t ih =>
      intro idx names hnd hmem
      rw [List.map_cons] at hnd hmem
      have hdisj := (List.nodup_append.mp hnd).2.2
      have hnotmem : Val.vstr w.1 ∉ names := fun hm =>
        hdisj hm (List.mem_cons_self _ _)
      have hcont : names.contains (Val.vstr w.1) = false := by
        rw [val_contains_eq_decide]
        exact decide_eq_false hnotmem
      rw [List.map_cons, List.cons_append]
      have hstep : pValidatePartialsLoop expected
          (mkPartial w :: (t.map mkPartial ++ (mkPartial (n, c) :: rest))) idx names
          = if names.contains (Val.vstr w.1) then
              (false, some ("Duplicate partial name detected: " ++ pyStr (Val.vstr w.1)))
            else pValidatePartialsLoop expected
              (t.map mkPartial ++ (mkPartial (n, c) :: rest)) (idx + 1)
              (names ++ [Val.vstr w.1]) := rfl
      rw [hstep, hcont]
      have hnd2 : ((names ++ [Val.vstr w.1]) ++ t.map (fun w => Val.vstr w.1)).Nodup := by
        rw [List.append_assoc]
        exact hnd
      have hmem2 : Val.vstr n ∈ (names ++ [Val.vstr w.1]) ++ t.map (fun w => Val.vstr w.1) := by
        rw [List.append_assoc]
        exact hmem
      rw [ih (idx + 1) (names ++ [Val.vstr w.1]) hnd2 hmem2]
      rfl

/-- C9: a well-formed payload whose `prompt_partials` list repeats a name
fails validation with the message naming the first duplicated name; the
result does not depend on the expected-name set, and the items after the
duplicate — even ill-formed ones — are never inspected: the duplicate check
runs before the missing-name and extra-name closed-set checks. -/
theorem duplicate_partial_name_detected (expected : List String)
    (pre : List (String × String)) (n c : String) (rest : List Val)
    (hnodup : (pre.map Prod.fst).Nodup) (hmem : n ∈ pre.map Prod.fst) :
    pValidateStage expected .partialPrompts
      (Val.vdict [("prompt_partials",
        .vlist (pre.map mkPartial ++ (mkPartial (n, c) :: rest)))])
      = (false, some ("Duplicate partial name detected: " ++ n)) := by
  have h0 : pValidateStage expected .partialPrompts
      (Val.vdict [("prompt_partials",
        .vlist (pre.map mkPartial ++ (mkPartial (n, c) :: rest)))])
      = pValidatePartialsLoop expected
        (pre.map mkPartial ++ (mkPartial (n, c) :: rest)) 0 [] := rfl
  rw [h0]
  have hmap : pre.map (fun w => Val.vstr w.1) = (pre.map Prod.fst).map Val.vstr :=
    (List.map_map _ _ _).symm
  refine pValidateLoop_dup expected n c rest pre 0 [] ?_ ?_
  · rw [List.nil_append, hmap]
    exact hnodup.map (fun a b h => Val.vstr.inj h)
  · rw [List.nil_append, hmap]
    exact List.mem_map_of_mem Val.vstr hmem

/-- Witness for `duplicate_partial_name_detected`: a payload repeating the
name `zq`, with an ill-formed trailing item, fails with the duplicate
message regardless of the expected set. -/
theorem duplicate_partial_name_detected_witness :
    pValidateStage ["game_description"] .partialPrompts
      (Val.vdict [("prompt_partials",
        .vlist ([("zq", "1")].map mkPartial ++ (mkPartial ("zq", "2") :: [Val.vnull])))])
      = (false, some "Duplicate partial name detected: zq") := by
  have h := duplicate_partial_name_detected ["game_description"] [("zq", "1")]
    "zq" "2" [Val.vnull] (by decide) (by decide)
  exact h.trans (by decide)

/-! ## C1 — role cross-reference assembly -/

/-- C1: during assembly the full interpreter gives the role at (0-based)
position `i` the numeric identifier `i + 1`; when the stringified raw role
identifiers are pairwise distinct the lookup maps each role's raw
identifier to exactly that number; every role-prompt entry and every
agent-to-role entry is resolved through this lookup, and an entry whose raw
identifier is not a key of the lookup contributes nothing (`targetEntryFor`
/ `fAgentSpec` / `rAgentSpec` return `none` exactly on the skipped
entries); `_finalize` nevertheless ends in `SUCCESS` in both interpreters. -/
theorem assembler_cross_reference (mb rolesPhases sb gb rpb ab parsed : Val)
    (metaRes rolesRes stateRes rolePromptsRes agentsRes managerRes
      runnerRes : Option Val)
    (hnodup : ((asList (vgetD rolesPhases "roles" (.vlist []))).map
      (fun r => pyStrOpt (vget r "role_id_raw"))).Nodup) :
    (∀ i (h : i < (fFinalize mb rolesPhases sb gb rpb ab).1.agent_roles.length),
      ((fFinalize mb rolesPhases sb gb rpb ab).1.agent_roles.get ⟨i, h⟩).role_id
        = i + 1)
    ∧ (∀ i (h : i < (asList (vgetD rolesPhases "roles" (.vlist []))).length),
      lookupNat (roleIdLookupFrom "role_id_raw"
          (asList (vgetD rolesPhases "roles" (.vlist []))))
        (pyStrOpt (vget ((asList (vgetD rolesPhases "roles" (.vlist []))).get
          ⟨i, h⟩) "role_id_raw")) = some (i + 1))
    ∧ (∀ ar ∈ (fFinalize mb rolesPhases sb gb rpb ab).1.agent_roles,
      ar.prompts = (asList (vgetD rpb "role_prompts" (.vlist []))).filterMap
        (targetEntryFor (fAttachTarget (roleIdLookupFrom "role_id_raw"
          (asList (vgetD rolesPhases "roles" (.vlist []))))) ar.role_id))
    ∧ ((fFinalize mb rolesPhases sb gb rpb ab).1.agents
      = (asList (vgetD ab "agents" (.vlist []))).filterMap
        (fAgentSpec (roleIdLookupFrom "role_id_raw"
          (asList (vgetD rolesPhases "roles" (.vlist []))))))
    ∧ (∀ rp lookup, lookupNat lookup (pyStrOpt (vget rp "role_identifier")) = none →
        fAttachTarget lookup rp = none)
    ∧ (∀ a lookup, lookupNat lookup (pyStrOpt (vget a "role_ref")) = none →
        fAgentSpec lookup a = none)
    ∧ (fFinalize mb rolesPhases sb gb rpb ab).2 = InterpStageState.SUCCESS
    ∧ (rFinalize parsed metaRes rolesRes stateRes rolePromptsRes agentsRes
        managerRes runnerRes).2 = InterpStageState.SUCCESS := by
  refine ⟨fFinalize_agent_roles_get mb rolesPhases sb gb rpb ab,
    roleIdLookupFrom_get "role_id_raw" _ hnodup,
    fFinalize_prompts mb rolesPhases sb gb rpb ab,
    fFinalize_agents mb rolesPhases sb gb rpb ab,
    ?_, ?_, rfl, rfl⟩
  · intro rp lookup hnone
    unfold fAttachTarget
    by_cases ht : (vgetD rp "text" (.vstr "") == Val.vstr cannotInfer) = true
    · simp [ht]
    · simp [ht, hnone]
  · intro a lookup hnone
    unfold fAgentSpec
    rw [hnone]

/-- Witness for `assembler_cross_reference`: the spec's §8 example — roles
`Buyer`, `Seller` in first-seen order give `Seller` the resolved id 2, and
a role-prompt entry referencing the stale identifier `Ghost` resolves to
nothing. -/
theorem assembler_cross_reference_witness :
    lookupNat (roleIdLookupFrom "role_id_raw"
        (asList (vgetD (Val.vdict [("roles", .vlist
          [.vdict [("role_id_raw", .vstr "Buyer")],
           .vdict [("role_id_raw", .vstr "Seller")]])]) "roles" (.vlist []))))
      (pyStrOpt (vget ((asList (vgetD (Val.vdict [("roles", .vlist
          [.vdict [("role_id_raw", .vstr "Buyer")],
           .vdict [("role_id_raw", .vstr "Seller")]])]) "roles" (.vlist []))).get
        ⟨1, by decide⟩) "role_id_raw")) = some 2
    ∧ fAttachTarget (roleIdLookupFrom "role_id_raw"
        [Val.vdict [("role_id_raw", .vstr "Buyer")],
         Val.vdict [("role_id_raw", .vstr "Seller")]])
      (.vdict [("role_identifier", .vstr "Ghost"), ("kind", .vstr "system"),
        ("text", .vstr "hello")]) = none := by
  constructor
  · exact (assembler_cross_reference (.vdict []) (Val.vdict [("roles", .vlist
      [.vdict [("role_id_raw", .vstr "Buyer")],
       .vdict [("role_id_raw", .vstr "Seller")]])]) (.vdict []) (.vdict [])
      (.vdict []) (.vdict []) (.vdict []) none none none none none none none
      (by decide)).2.1 1 (by decide)
  · exact (assembler_cross_reference (.vdict []) (Val.vdict [("roles", .vlist
      [.vdict [("role_id_raw", .vstr "Buyer")],
       .vdict [("role_id_raw", .vstr "Seller")]])]) (.vdict []) (.vdict [])
      (.vdict []) (.vdict []) (.vdict []) none none none none none none none
      (by decide)).2.2.2.2.1 _ _ (by decide)

/-! ## C10 — agents with unconvertible ids -/

/-- C10: in both assemblers the agents loop is the `filterMap` of its
per-entry resolution, so an agents-stage entry whose role reference
resolves in the lookup but whose `id` cannot be converted by `int()` is
silently dropped (appending such an entry leaves the built agents list
unchanged), and `_finalize` still ends in `SUCCESS`. -/
theorem agents_unconvertible_id_omitted (lookup : List (String × Nat))
    (agents : List Val) (a : Val) (mb rp sb gb rpb ab parsed : Val)
    (m r s rp2 ag man run : Option Val) :
    fBuildAgents lookup agents = agents.filterMap (fAgentSpec lookup)
    ∧ rBuildAgents lookup agents = agents.filterMap (rAgentSpec lookup)
    ∧ (lookupNat lookup (pyStrOpt (vget a "role_ref")) ≠ none →
        pyToIntOpt (vget a "id") = none →
        fBuildAgents lookup (agents ++ [a]) = fBuildAgents lookup agents)
    ∧ (lookupNat lookup (pyStrOpt (vget a "raw_role_ref")) ≠ none →
        pyToIntOpt (vget a "id") = none →
        rBuildAgents lookup (agents ++ [a]) = rBuildAgents lookup agents)
    ∧ (fFinalize mb rp sb gb rpb ab).2 = InterpStageState.SUCCESS
    ∧ (rFinalize parsed m r s rp2 ag man run).2 = InterpStageState.SUCCESS := by
  refine ⟨fBuildAgents_eq lookup agents, rBuildAgents_eq lookup agents,
    fun h1 h2 => ?_, fun h1 h2 => ?_, rfl, rfl⟩
  · rw [fBuildAgents_eq, fBuildAgents_eq, List.filterMap_append]
    have hspec : fAgentSpec lookup a = none := by
      unfold fAgentSpec
      rcases hl : lookupNat lookup (pyStrOpt (vget a "role_ref")) with _ | rid
      · exact absurd hl h1
      · simp [h2]
    simp [hspec]
  · rw [rBuildAgents_eq, rBuildAgents_eq, List.filterMap_append]
    have hspec : rAgentSpec lookup a = none := by
      unfold rAgentSpec
      rcases hl : lookupNat lookup (pyStrOpt (vget a "raw_role_ref")) with _ | rid
      · exact absurd hl h1
      · simp [h2]
    simp [hspec]

/-- Witness for `agents_unconvertible_id_omitted`: an agent entry whose
role reference resolves but whose id is the non-numeric string `"x"` leaves
the built agents list unchanged. -/
theorem agents_unconvertible_id_omitted_witness :
    fBuildAgents [("1", 1)]
      ([Val.vdict [("role_ref", .vstr "1"), ("id", .vint 7)]]
        ++ [Val.vdict [("role_ref", .vstr "1"), ("id", .vstr "x")]])
      = fBuildAgents [("1", 1)]
        [Val.vdict [("role_ref", .vstr "1"), ("id", .vint 7)]] :=
  (agents_unconvertible_id_omitted [("1", 1)]
    [Val.vdict [("role_ref", .vstr "1"), ("id", .vint 7)]]
    (Val.vdict [("role_ref", .vstr "1"), ("id", .vstr "x")])
    (.vdict []) (.vdict []) (.vdict []) (.vdict []) (.vdict []) (.vdict [])
    (.vdict []) none none none none none none none).2.2.1
    (by decide) (by decide)

end EconSpec
